/-
Verification of the karmy-gold ETF strategy engine.

This file gives a shallow embedding, in Lean 4, of the parts of the
repository that the specification talks about:

* `src/position.py`   — low-correlation portfolio selection, risk-parity
                        weights, trend strength, dynamic position sizing,
                        portfolio risk monitoring;
* `src/etf_scoring.py` — regime-adjusted score weights, the six sub-score
                        functions, the composite ETF score;
* `src/etf_list.py`   — regime-adjusted screening thresholds;
* `src/config.py`     — the constants those functions read.

Modelling conventions:

* Pure numeric Python code over floats is embedded over `ℚ` where the
  computation is rational, and over `ℝ` where the source uses
  `np.exp`/`np.log`/`np.sqrt`/float powers.  Idealised real arithmetic
  stands in for IEEE-754 doubles; every claim proved here is tolerant of
  that substitution (the spec states its numeric claims "within
  floating-point tolerance").
* A pandas `DataFrame` is a record of optional columns (a column that is
  absent in the frame is `none`), plus a row count and the invariant that
  every present column has that many rows.
* A float `NaN` produced by pandas reductions (e.g. `std` of fewer than
  two observations, `mean` of an empty column) is modelled by `Option ℝ`:
  `none` is `NaN`, `some x` is the finite double `x`.  Python's built-in
  `min`/`max` keep their *first* argument when a comparison with `NaN` is
  involved (`max(a, b)` returns `b` only when `b > a` is `True`); the
  embedded `pymax`/`pymin` reproduce exactly that argument-order
  behaviour.
* Python's `round(x, n)` (banker's rounding, round-half-to-even) is
  embedded exactly as such on the rationals-in-`ℝ` we evaluate it on.
* A `try: ... except: return d` wrapper is embedded by returning `d` on
  the branch that raises in Python; each such branch is commented at its
  definition site.
-/
import Mathlib

namespace KarmyGold

/-! ## Regime-adjusted score weights — `adjust_score_weights`
(`src/etf_scoring.py`, lines 45–71) and `BASE_SCORE_WEIGHTS`
(`src/config.py`, lines 101–108). -/

/-- The six score weights, `Config.BASE_SCORE_WEIGHTS` keys
`liquidity, risk, return, tracking, premium, stability`
(the `return` key is called `ret` here because `return` is a Lean
keyword). -/
structure ScoreWeights where
  liquidity : ℚ
  risk : ℚ
  ret : ℚ
  tracking : ℚ
  premium : ℚ
  stability : ℚ
deriving DecidableEq, Repr

/-- `Config.BASE_SCORE_WEIGHTS` from `src/config.py`. -/
def BASE_SCORE_WEIGHTS : ScoreWeights :=
  { liquidity := 0.15, risk := 0.25, ret := 0.20,
    tracking := 0.20, premium := 0.10, stability := 0.10 }

/-- The sum of the six weight values (`sum(weights.values())`). -/
def ScoreWeights.total (w : ScoreWeights) : ℚ :=
  w.liquidity + w.risk + w.ret + w.tracking + w.premium + w.stability

/-- Divide every weight by `t` (the dict comprehension
`{k: v/total for k, v in weights.items()}`). -/
def ScoreWeights.divAll (w : ScoreWeights) (t : ℚ) : ScoreWeights :=
  { liquidity := w.liquidity / t, risk := w.risk / t, ret := w.ret / t,
    tracking := w.tracking / t, premium := w.premium / t,
    stability := w.stability / t }

/-- `adjust_score_weights` from `src/etf_scoring.py`:
bear regime bumps risk +0.1, return −0.05, premium +0.05; bull regime
bumps return +0.05, risk −0.05, tracking −0.05; anything else keeps the
base weights; the result is divided by its new total. -/
def adjust_score_weights (market_condition : String) : ScoreWeights :=
  let w := BASE_SCORE_WEIGHTS
  let w :=
    if market_condition = "bear" then
      { w with risk := w.risk + 0.1, ret := w.ret - 0.05,
               premium := w.premium + 0.05 }
    else if market_condition = "bull" then
      { w with ret := w.ret + 0.05, risk := w.risk - 0.05,
               tracking := w.tracking - 0.05 }
    else w
  w.divAll w.total

/-! ## Dynamic position sizing — `adjust_position_size`
(`src/position.py`, lines 1310–1345). -/

/-- `adjust_position_size` from `src/position.py`: 60% base exposure,
−30pp for high risk / −10pp for medium, −20pp in bear / +10pp in bull,
damped by `1 − clamp((volatility − 0.1)·2, 0, 0.3)`, clamped to
[0.2, 0.8]. -/
def adjust_position_size (risk_level market_condition : String)
    (volatility : ℚ) : ℚ :=
  let base_position : ℚ := 0.6
  let base_position :=
    if risk_level = "high" then base_position - 0.3
    else if risk_level = "medium" then base_position - 0.1
    else base_position
  let base_position :=
    if market_condition = "bear" then base_position - 0.2
    else if market_condition = "bull" then base_position + 0.1
    else base_position
  let volatility_factor : ℚ := 1 - min (max ((volatility - 0.1) * 2) 0) 0.3
  let adjusted_position := base_position * volatility_factor
  max (min adjusted_position 0.8) 0.2

/-- The target-exposure formula exactly as the spec words it: start at
0.6, subtract 0.3 when risk is high or 0.1 when medium, subtract 0.2 in
bear or add 0.1 in bull, multiply by `1 − clamp((v − 0.10)·2, 0, 0.30)`,
clamp the result to [0.20, 0.80].  Written from the spec sentence, for
comparison with `adjust_position_size`. -/
def targetExposureSpec (risk_level market_condition : String)
    (volatility : ℚ) : ℚ :=
  let start : ℚ :=
    0.6 - (if risk_level = "high" then 0.3
           else if risk_level = "medium" then 0.1 else 0)
      - (if market_condition = "bear" then 0.2 else 0)
      + (if market_condition = "bull" then 0.1 else 0)
  let damping : ℚ := 1 - min (max ((volatility - 0.1) * 2) 0) 0.3
  max (min (start * damping) 0.8) 0.2

/-! ## Regime-adjusted screening thresholds —
`get_dynamic_selection_thresholds` (`src/etf_list.py`, lines 440–463)
and `ETF_SELECTION_LAYERS["base"]` (`src/config.py`, lines 347–371). -/

/-- The `base` screening layer of `Config.ETF_SELECTION_LAYERS`:
keys `min_fund_size, min_avg_volume, min_listing_days,
max_tracking_error`. -/
structure SelectionParams where
  min_fund_size : ℚ
  min_avg_volume : ℚ
  min_listing_days : ℕ
  max_tracking_err : ℚ
deriving DecidableEq, Repr

/-- `ETF_SELECTION_LAYERS["base"]` from `src/config.py`. -/
def baseSelectionLayer : SelectionParams :=
  { min_fund_size := 10.0, min_avg_volume := 5000.0,
    min_listing_days := 365, max_tracking_err := 0.05 }

/-- `get_dynamic_selection_thresholds` from `src/etf_list.py`, with the
base layer it copies passed explicitly (`base_params =
Config.ETF_SELECTION_LAYERS["base"].copy()`): bull multiplies
`min_fund_size` and `min_avg_volume` by 1.2; bear multiplies both by 0.8
and then re-floors `min_avg_volume` at 3000.0; any other regime leaves
the parameters unchanged. -/
def get_dynamic_selection_thresholds (base_params : SelectionParams)
    (market_condition : String) : SelectionParams :=
  if market_condition = "bull" then
    { base_params with
      min_fund_size := base_params.min_fund_size * 1.2,
      min_avg_volume := base_params.min_avg_volume * 1.2 }
  else if market_condition = "bear" then
    { base_params with
      min_fund_size := base_params.min_fund_size * 0.8,
      min_avg_volume := max (base_params.min_avg_volume * 0.8) 3000.0 }
  else base_params

/-! ## Trend strength — `calculate_trend_strength`
(`src/position.py`, lines 1265–1308).  The close column is the only
input the function reads; it is passed as a list. -/

/-- `calculate_trend_strength` from `src/position.py`.  With fewer than
`period` rows it returns 0.5.  Otherwise `start_price = iloc[-period]`,
`end_price = iloc[-1]`, `total_change = end − start`;
`absolute_volatility = df[close].diff().abs().sum()` sums the absolute
day-to-day changes of the WHOLE series (`diff()` is not windowed; the
leading `NaN` of `diff` is skipped by `sum`); the ratio is 0 when the
denominator is 0, and the result is clamped to [0, 1]. -/
def calculate_trend_strength (closes : List ℚ) (period : ℕ) : ℚ :=
  if closes.length < period then 0.5
  else
    let start_price := closes.getD (closes.length - period) 0
    let end_price := closes.getD (closes.length - 1) 0
    let total_change := end_price - start_price
    let absolute_volatility :=
      (List.zipWith (fun a b => |b - a|) closes closes.tail).sum
    let trend_strength :=
      if absolute_volatility ≠ 0 then |total_change| / absolute_volatility
      else 0
    min (max trend_strength 0) 1

/-- The last `k` elements of a list (`df.tail(k)` on one column). -/
def takeLast (k : ℕ) (l : List α) : List α := l.drop (l.length - k)

/-- Trend strength exactly as the spec words it: the absolute net close
change over the trailing `period`-row window divided by the sum of
absolute daily close changes over that SAME window, clamped to [0, 1]
(0 when the window's denominator is 0); 0.5 with fewer than `period`
rows.  Written from the spec sentence, for comparison with
`calculate_trend_strength`. -/
def trendStrengthSpec (closes : List ℚ) (period : ℕ) : ℚ :=
  if closes.length < period then 0.5
  else
    let w := takeLast period closes
    let net := w.getD (w.length - 1) 0 - w.getD 0 0
    let denom := (List.zipWith (fun a b => |b - a|) w w.tail).sum
    let ts := if denom ≠ 0 then |net| / denom else 0
    min (max ts 0) 1

/-! ## Low-correlation selection — `select_low_correlation_etfs`
(`src/position.py`, lines 794–841). -/

/-- One row of the candidate frame: an ETF code and its composite
score. -/
structure Etf where
  code : String
  score : ℚ
deriving DecidableEq, Repr

/-- The `for _, etf in etfs.iterrows()` loop of
`select_low_correlation_etfs`.  `sel` is the `selected` accumulator.
An empty accumulator admits the candidate unconditionally (`continue`,
with no capacity check).  Otherwise the candidate is admitted iff its
correlation with every already-selected member is ≤ `min_correlation`
(the loop breaks out with `is_low_correlation = False` on the first
member whose correlation exceeds it); after an admission the loop stops
as soon as `len(selected) >= max_holdings`. -/
def selectLoop (corr : String → String → ℚ) (min_correlation : ℚ)
    (max_holdings : ℕ) : List Etf → List Etf → List Etf
  | [], sel => sel
  | etf :: rest, sel =>
    if sel.isEmpty then
      selectLoop corr min_correlation max_holdings rest [etf]
    else if sel.all (fun s => decide (corr etf.code s.code ≤ min_correlation)) then
      let sel := sel ++ [etf]
      if max_holdings ≤ sel.length then sel
      else selectLoop corr min_correlation max_holdings rest sel
    else selectLoop corr min_correlation max_holdings rest sel

/-- `select_low_correlation_etfs` from `src/position.py`: sort the
candidates by score, descending (`etfs.sort_values("score",
ascending=False)`), then run the greedy admission loop.  The correlation
matrix lookup `correlation_matrix.loc[a, b]` is the function `corr`. -/
def select_low_correlation_etfs (corr : String → String → ℚ)
    (etfs : List Etf) (max_holdings : ℕ) (min_correlation : ℚ) :
    List Etf :=
  let sorted := etfs.insertionSort (fun a b => b.score ≤ a.score)
  selectLoop corr min_correlation max_holdings sorted []

end KarmyGold

namespace KarmyGold

/-! ## Theorems for the weight/threshold/sizing claims -/

/-- C2: for every market regime among bull, bear and sideways, the six
weight values returned by `adjust_score_weights` sum to 1: the
additive regime tweaks are followed by division by the new total. -/
theorem adjust_score_weights_sum_one (mc : String)
    (h : mc ∈ (["bull", "bear", "sideways"] : List String)) :
    (adjust_score_weights mc).total = 1 := by
  simp only [List.mem_cons, List.not_mem_nil, or_false] at h
  rcases h with rfl | rfl | rfl <;>
    simp [adjust_score_weights, BASE_SCORE_WEIGHTS, ScoreWeights.divAll,
      ScoreWeights.total] <;> norm_num

/-- Witness for `adjust_score_weights_sum_one` at the bull regime. -/
theorem adjust_score_weights_sum_one_witness :
    ("bull" : String) ∈ (["bull", "bear", "sideways"] : List String) ∧
      (adjust_score_weights "bull").total = 1 :=
  ⟨by decide, adjust_score_weights_sum_one "bull" (by decide)⟩

/-- C7: for every risk level among low/medium/high, every regime among
bull/bear/sideways and every volatility, `adjust_position_size` computes
exactly the spec's formula: (0.6 − 0.3 if high / 0.1 if medium, −0.2 in
bear / +0.1 in bull) · (1 − clamp((v − 0.10)·2, 0, 0.30)), clamped to
[0.20, 0.80]. -/
theorem adjust_position_size_eq_spec (r mc : String) (v : ℚ)
    (hr : r ∈ (["low", "medium", "high"] : List String))
    (hmc : mc ∈ (["bull", "bear", "sideways"] : List String)) :
    adjust_position_size r mc v = targetExposureSpec r mc v := by
  simp only [List.mem_cons, List.not_mem_nil, or_false] at hr hmc
  rcases hr with rfl | rfl | rfl <;> rcases hmc with rfl | rfl | rfl <;>
    simp [adjust_position_size, targetExposureSpec]

/-- Witness for `adjust_position_size_eq_spec` at (low, sideways,
v = 0.05). -/
theorem adjust_position_size_eq_spec_witness :
    ("low" : String) ∈ (["low", "medium", "high"] : List String) ∧
      ("sideways" : String) ∈ (["bull", "bear", "sideways"] : List String) ∧
      adjust_position_size "low" "sideways" 0.05 =
        targetExposureSpec "low" "sideways" 0.05 :=
  ⟨by decide, by decide,
    adjust_position_size_eq_spec "low" "sideways" 0.05 (by decide) (by decide)⟩

/-- C8: for every base parameter set, the regime-adjusted screening
thresholds are: bull — `min_fund_size` and `min_avg_volume` each ×1.2;
bear — both ×0.8 and then `min_avg_volume` re-floored at the fixed
liquidity floor 3000.0 (so it is never below that floor); sideways —
unchanged; the other two parameters unchanged in every regime. -/
theorem dynamic_selection_thresholds_spec (base : SelectionParams) :
    (get_dynamic_selection_thresholds base "bull" =
      { base with min_fund_size := base.min_fund_size * 1.2,
                  min_avg_volume := base.min_avg_volume * 1.2 }) ∧
    (get_dynamic_selection_thresholds base "bear" =
      { base with min_fund_size := base.min_fund_size * 0.8,
                  min_avg_volume := max (base.min_avg_volume * 0.8) 3000.0 }) ∧
    (3000.0 ≤ (get_dynamic_selection_thresholds base "bear").min_avg_volume) ∧
    (get_dynamic_selection_thresholds base "sideways" = base) := by
  refine ⟨by simp [get_dynamic_selection_thresholds], ?_, ?_, by
    simp [get_dynamic_selection_thresholds]⟩
  · simp [get_dynamic_selection_thresholds]
  · simp [get_dynamic_selection_thresholds]

end KarmyGold

namespace KarmyGold

/-! ## Theorems for trend strength (C6) -/

/-- The pandas pipeline `diff().abs().sum()` on a column, written as a
`Finset.range` sum over adjacent indices. -/
lemma zip_abs_diff_sum (l : List ℚ) :
    (List.zipWith (fun a b => |b - a|) l l.tail).sum =
      ∑ i ∈ Finset.range (l.length - 1), |l.getD (i + 1) 0 - l.getD i 0| := by
  induction l with
  | nil => simp
  | cons a t ih =>
    cases t with
    | nil => simp
    | cons b t2 =>
      simp only [List.tail_cons] at ih ⊢
      rw [List.zipWith_cons_cons, List.sum_cons, ih]
      have hlen : (a :: b :: t2).length - 1 = t2.length + 1 := by simp
      rw [hlen, Finset.sum_range_succ']
      simp only [List.length_cons, Nat.add_sub_cancel, List.getD_cons_succ,
        List.getD_cons_zero]
      ring

/-- C6 (amended): with fewer than 30 rows the trend strength is 0.5;
with at least 30 rows it equals the absolute net close change over the
trailing 30-row window divided by the sum of absolute daily close
changes over the ENTIRE series (0 when that denominator is 0), clamped
to [0, 1]; and the result always lies in [0, 1]. -/
theorem trend_strength_amended (closes : List ℚ) :
    (closes.length < 30 → calculate_trend_strength closes 30 = 0.5) ∧
    (30 ≤ closes.length →
      calculate_trend_strength closes 30 =
        min (max
          (if (∑ i ∈ Finset.range (closes.length - 1),
                |closes.getD (i + 1) 0 - closes.getD i 0|) ≠ 0 then
            |closes.getD (closes.length - 1) 0 -
              closes.getD (closes.length - 30) 0| /
              ∑ i ∈ Finset.range (closes.length - 1),
                |closes.getD (i + 1) 0 - closes.getD i 0|
          else 0) 0) 1) ∧
    0 ≤ calculate_trend_strength closes 30 ∧
    calculate_trend_strength closes 30 ≤ 1 := by
  refine ⟨fun h => by simp [calculate_trend_strength, h], fun h => ?_, ?_, ?_⟩
  · rw [calculate_trend_strength, if_neg (by omega), zip_abs_diff_sum]
  · rw [calculate_trend_strength]
    split
    · norm_num
    · exact le_min (le_max_right _ _) zero_le_one
  · rw [calculate_trend_strength]
    split
    · norm_num
    · exact min_le_right _ _

/-- Witness for `trend_strength_amended` at a three-row series (the
short-series branch). -/
theorem trend_strength_amended_witness :
    ([ (1 : ℚ), 2, 3 ].length < 30 →
        calculate_trend_strength [1, 2, 3] 30 = 0.5) ∧
      (30 ≤ ([ (1 : ℚ), 2, 3 ]).length →
        calculate_trend_strength [1, 2, 3] 30 =
          min (max
            (if (∑ i ∈ Finset.range (([ (1 : ℚ), 2, 3 ]).length - 1),
                  |([ (1 : ℚ), 2, 3 ]).getD (i + 1) 0 -
                    ([ (1 : ℚ), 2, 3 ]).getD i 0|) ≠ 0 then
              |([ (1 : ℚ), 2, 3 ]).getD (([ (1 : ℚ), 2, 3 ]).length - 1) 0 -
                ([ (1 : ℚ), 2, 3 ]).getD (([ (1 : ℚ), 2, 3 ]).length - 30) 0| /
                ∑ i ∈ Finset.range (([ (1 : ℚ), 2, 3 ]).length - 1),
                  |([ (1 : ℚ), 2, 3 ]).getD (i + 1) 0 -
                    ([ (1 : ℚ), 2, 3 ]).getD i 0|
            else 0) 0) 1) ∧
      0 ≤ calculate_trend_strength [1, 2, 3] 30 ∧
      calculate_trend_strength [1, 2, 3] 30 ≤ 1 :=
  trend_strength_amended [1, 2, 3]

/-- A 31-row close series: 100, then 29 rows at 200, then 210. -/
def trendCxCloses : List ℚ :=
  [100, 200, 200, 200, 200, 200, 200, 200, 200, 200,
   200, 200, 200, 200, 200, 200, 200, 200, 200, 200,
   200, 200, 200, 200, 200, 200, 200, 200, 200, 200, 210]

/-- C6 (counterexample): on `trendCxCloses` the code returns
10/110 = 1/11 — the denominator sums the absolute daily changes of the
whole 31-row series (including the 100→200 jump that lies outside the
trailing 30-row window) — while the spec's windowed formula gives 1.
So the claimed equality with the windowed formula is false. -/
theorem trend_strength_counterexample :
    calculate_trend_strength trendCxCloses 30 = 1 / 11 ∧
      trendStrengthSpec trendCxCloses 30 = 1 ∧ (1 / 11 : ℚ) ≠ 1 := by
  refine ⟨?_, ?_, by norm_num⟩
  · norm_num [calculate_trend_strength, trendCxCloses, List.zipWith]
  · norm_num [trendStrengthSpec, takeLast, trendCxCloses, List.zipWith]

/-! ## Theorems for low-correlation selection (C1) -/

/-- Invariant proof for the greedy admission loop: if the accumulator is
strictly below capacity and pairwise compatible, the loop's result stays
within capacity (which needs `2 ≤ max_holdings`: the unconditional
admission of the first candidate re-enters the loop with one member and
no capacity check) and stays pairwise compatible, given a symmetric
correlation matrix. -/
lemma selectLoop_invariant (corr : String → String → ℚ)
    (hsym : ∀ a b, corr a b = corr b a) (th : ℚ) (maxH : ℕ)
    (hm : 2 ≤ maxH) :
    ∀ cands sel, sel.length < maxH →
      sel.Pairwise (fun a b => corr a.code b.code ≤ th) →
      (selectLoop corr th maxH cands sel).length ≤ maxH ∧
        (selectLoop corr th maxH cands sel).Pairwise
          (fun a b => corr a.code b.code ≤ th) := by
  intro cands
  induction cands with
  | nil => exact fun sel hlen hpw => ⟨le_of_lt hlen, hpw⟩
  | cons etf rest ih =>
    intro sel hlen hpw
    rw [selectLoop]
    by_cases hempty : sel.isEmpty
    · rw [if_pos hempty]
      exact ih [etf] (by simp only [List.length_singleton]; omega) (by simp)
    · rw [if_neg hempty]
      by_cases hall :
          sel.all (fun s => decide (corr etf.code s.code ≤ th)) = true
      · rw [if_pos hall]
        simp only [List.all_eq_true, decide_eq_true_eq] at hall
        have hpw2 : (sel ++ [etf]).Pairwise
            (fun a b => corr a.code b.code ≤ th) := by
          rw [List.pairwise_append]
          exact ⟨hpw, by simp, fun a ha b hb => by
            rw [List.mem_singleton] at hb
            subst hb
            rw [hsym]
            exact hall a ha⟩
        by_cases hcap : maxH ≤ (sel ++ [etf]).length
        · rw [if_pos hcap]
          refine ⟨?_, hpw2⟩
          simp only [List.length_append, List.length_singleton]
          omega
        · rw [if_neg hcap]
          exact ih _ (by omega) hpw2
      · rw [if_neg hall]
        exact ih sel hlen hpw

/-- C1 (amended): for every candidate list, every SYMMETRIC correlation
matrix, every `max_holdings ≥ 2` and every threshold,
`select_low_correlation_etfs` returns at most `max_holdings` ETFs and no
two returned ETFs have pairwise correlation exceeding the threshold.
(With `max_holdings = 1` the capacity can be exceeded: the first
candidate is admitted without a capacity check.) -/
theorem select_low_correlation_amended (corr : String → String → ℚ)
    (etfs : List Etf) (maxH : ℕ) (th : ℚ) (hm : 2 ≤ maxH)
    (hsym : ∀ a b, corr a b = corr b a) :
    (select_low_correlation_etfs corr etfs maxH th).length ≤ maxH ∧
      (select_low_correlation_etfs corr etfs maxH th).Pairwise
        (fun a b => corr a.code b.code ≤ th) :=
  selectLoop_invariant corr hsym th maxH hm _ []
    (by simp only [List.length_nil]; omega) (by simp)

/-- Witness for `select_low_correlation_amended`: two candidates, the
all-zero (symmetric) correlation matrix, `max_holdings = 2`. -/
theorem select_low_correlation_amended_witness :
    2 ≤ 2 ∧
      ((select_low_correlation_etfs (fun _ _ => 0)
          [⟨"510300", 2⟩, ⟨"159915", 1⟩] 2 0.7).length ≤ 2 ∧
        (select_low_correlation_etfs (fun _ _ => 0)
            [⟨"510300", 2⟩, ⟨"159915", 1⟩] 2 0.7).Pairwise
          (fun a b => (fun (_ _ : String) => (0 : ℚ)) a.code b.code ≤ 0.7)) :=
  ⟨le_refl 2,
    select_low_correlation_amended (fun _ _ => 0)
      [⟨"510300", 2⟩, ⟨"159915", 1⟩] 2 0.7 (le_refl 2) (fun _ _ => rfl)⟩

/-- C1 (counterexample): with `max_holdings = 1` (which the original
claim allows, `max_holdings ≥ 1`) and two uncorrelated candidates, the
function returns 2 ETFs: the first candidate is admitted without a
capacity check, and the second passes the correlation test, so the
"at most `max_holdings`" part of the claim is false. -/
theorem select_low_correlation_counterexample :
    ¬ ((select_low_correlation_etfs (fun _ _ => 0)
        [⟨"510300", 2⟩, ⟨"159915", 1⟩] 1 0.7).length ≤ 1) := by
  norm_num [select_low_correlation_etfs, selectLoop, List.insertionSort,
    List.orderedInsert]

end KarmyGold

namespace KarmyGold

/-! ## Portfolio risk monitoring — `monitor_portfolio_risk`
(`src/position.py`, lines 1347–1421), `calculate_overall_risk_level`
(lines 1659–1687) and `generate_risk_alert` (lines 1689–1704).

The six metric computations (`calculate_portfolio_volatility`,
`calculate_var`, `calculate_max_drawdown_warning`,
`monitor_liquidity_risk`, `monitor_tracking_risk`,
`monitor_correlation_risk`) read market data from disk; each either
returns a float or raises.  They are modelled as an environment of
`Except` values: `.ok q` is a returned float, `.error e` a raised
exception with message `e`.  The returned Python dict is modelled as an
association list so that which KEYS are present is part of the model. -/

/-- A value stored in the risk-snapshot dict: a float or a string. -/
inductive RVal where
  | num (q : ℚ)
  | str (s : String)
deriving DecidableEq, Repr

/-- The Python dict returned by `monitor_portfolio_risk`, as an
association list (insertion order preserved, as in Python). -/
abbrev Snapshot := List (String × RVal)

/-- Reading `d[k]` from a Python dict: the value when the key is
present, a `KeyError` otherwise. -/
def pyDictGet (s : Snapshot) (k : String) : Except String RVal :=
  match s.lookup k with
  | some v => Except.ok v
  | none => Except.error ("KeyError: " ++ k)

/-- Structural model of Python's `str.split(",")`: cut at every comma;
an input with no comma yields a one-element list. -/
def splitCommaAux : List Char → List Char → List String
  | [], acc => [String.mk acc.reverse]
  | c :: rest, acc =>
    if c = ',' then String.mk acc.reverse :: splitCommaAux rest []
    else splitCommaAux rest (c :: acc)

/-- Python's `str.split(",")` on a string. -/
def pySplitComma (s : String) : List String := splitCommaAux s.toList []

/-- Structural model of Python's `str.strip()`: drop leading and
trailing whitespace. -/
def pyStrip (s : String) : String :=
  String.mk
    (((s.toList.dropWhile Char.isWhitespace).reverse.dropWhile
      Char.isWhitespace).reverse)

/-- The code-extraction loop of `monitor_portfolio_risk`: each
position row's `ETF代码` cell (`none` models a NaN cell) is skipped when
NaN or empty, and otherwise split on commas, stripped, and filtered of
empty pieces. -/
def extractEtfCodes (rows : List (Option String)) : List String :=
  rows.foldl
    (fun acc cell =>
      match cell with
      | none => acc
      | some s =>
        if s = "" then acc
        else acc ++ ((pySplitComma s).map pyStrip).filter (fun c => c ≠ ""))
    []

/-- `calculate_overall_risk_level` from `src/position.py`: clamp each
numeric metric to [0, 1], weight by [0.2, 0.2, 0.2, 0.15, 0.15, 0.1],
and threshold the weighted sum at 0.7 / 0.4. -/
def calculate_overall_risk_level (metrics : List ℚ) : String :=
  let risk_scores := metrics.map (fun m => min (max m 0) 1)
  let weights : List ℚ := [0.2, 0.2, 0.2, 0.15, 0.15, 0.1]
  let weighted_avg := (List.zipWith (fun s w => s * w) risk_scores weights).sum
  if 0.7 < weighted_avg then "high"
  else if 0.4 < weighted_avg then "medium"
  else "low"

/-- `generate_risk_alert` from `src/position.py`. -/
def generate_risk_alert (risk_level : String) : String :=
  if risk_level = "high" then "⚠️ 高风险预警：建议大幅降低仓位或切换至防御性策略！"
  else if risk_level = "medium" then "⚠️ 中等风险：建议适当降低仓位或调整持仓结构！"
  else "✅ 风险水平正常：可维持当前仓位策略。"

/-- The six metric computations of `monitor_portfolio_risk`, as an
environment of outcomes. -/
structure RiskMetricsEnv where
  portfolio_volatility : Except String ℚ
  var_1d : Except String ℚ
  max_drawdown_warning : Except String ℚ
  liquidity_risk : Except String ℚ
  tracking_risk : Except String ℚ
  correlation_risk : Except String ℚ

/-- Run the six metric computations in source order; the first raised
exception aborts the `try` block. -/
def seqRiskMetrics (env : RiskMetricsEnv) :
    Except String (ℚ × ℚ × ℚ × ℚ × ℚ × ℚ) := do
  let pv ← env.portfolio_volatility
  let v1 ← env.var_1d
  let mdd ← env.max_drawdown_warning
  let lr ← env.liquidity_risk
  let tr ← env.tracking_risk
  let cr ← env.correlation_risk
  pure (pv, v1, mdd, lr, tr, cr)

/-- The dict built by the `except` branch of `monitor_portfolio_risk`:
only three keys, no numeric metric fields. -/
def failureSnapshot (e : String) : Snapshot :=
  [("overall_risk_level", RVal.str "high"),
   ("error", RVal.str e),
   ("risk_alert", RVal.str "风险监控系统故障，请立即检查！")]

/-- `monitor_portfolio_risk` from `src/position.py`: empty holdings
give the fixed "low" snapshot; otherwise the six metrics are computed
and combined, and any raised exception is caught and turned into
`failureSnapshot`. -/
def monitor_portfolio_risk (rows : List (Option String))
    (env : RiskMetricsEnv) : Snapshot :=
  let etf_codes := extractEtfCodes rows
  if etf_codes.isEmpty then
    [("portfolio_volatility", RVal.num 0), ("var_1d", RVal.num 0),
     ("max_drawdown_warning", RVal.num 0), ("liquidity_risk", RVal.num 0),
     ("tracking_risk", RVal.num 0), ("correlation_risk", RVal.num 0),
     ("overall_risk_level", RVal.str "low"),
     ("risk_alert", RVal.str "无持仓，风险极低")]
  else
    match seqRiskMetrics env with
    | Except.ok (pv, v1, mdd, lr, tr, cr) =>
      let lvl := calculate_overall_risk_level [pv, v1, mdd, lr, tr, cr]
      [("portfolio_volatility", RVal.num pv), ("var_1d", RVal.num v1),
       ("max_drawdown_warning", RVal.num mdd),
       ("liquidity_risk", RVal.num lr), ("tracking_risk", RVal.num tr),
       ("correlation_risk", RVal.num cr),
       ("overall_risk_level", RVal.str lvl),
       ("risk_alert", RVal.str (generate_risk_alert lvl))]
    | Except.error e => failureSnapshot e

/-- The read `risk_level["portfolio_volatility"]` performed by
`generate_position_suggestion` (`src/position.py`, line 506) on the
risk snapshot it receives. -/
def suggestionVolRead (s : Snapshot) : Except String RVal :=
  pyDictGet s "portfolio_volatility"

/-- The six numeric-metric reads performed by
`generate_detailed_messages` (`src/position.py`, lines 335–343) on the
risk snapshot it receives; the first missing key raises. -/
def messagesMetricReads (s : Snapshot) : Except String (List RVal) :=
  ["portfolio_volatility", "var_1d", "max_drawdown_warning",
   "liquidity_risk", "tracking_risk", "correlation_risk"].mapM
    (pyDictGet s)

end KarmyGold

namespace KarmyGold

/-- C9: whenever the portfolio is non-empty and any of the six metric
computations raises, `monitor_portfolio_risk` catches the exception and
returns the failure snapshot — `overall_risk_level` is "high" and the
risk alert is the fixed system-failure text, never a best-guess lower
level (and the function returns a snapshot rather than propagating the
exception). -/
theorem monitor_portfolio_risk_failsafe (rows : List (Option String))
    (env : RiskMetricsEnv) (e : String)
    (hcodes : (extractEtfCodes rows).isEmpty = false)
    (herr : seqRiskMetrics env = Except.error e) :
    monitor_portfolio_risk rows env = failureSnapshot e ∧
      (monitor_portfolio_risk rows env).lookup "overall_risk_level" =
        some (RVal.str "high") ∧
      (monitor_portfolio_risk rows env).lookup "risk_alert" =
        some (RVal.str "风险监控系统故障，请立即检查！") := by
  have h1 : monitor_portfolio_risk rows env = failureSnapshot e := by
    rw [monitor_portfolio_risk]
    simp only [hcodes, Bool.false_eq_true, if_false, herr]
  exact ⟨h1, by rw [h1]; rfl, by rw [h1]; rfl⟩

/-- Witness for `monitor_portfolio_risk_failsafe`: one holding row and
an environment whose first metric computation raises. -/
theorem monitor_portfolio_risk_failsafe_witness :
    (extractEtfCodes [some "510300"]).isEmpty = false ∧
      seqRiskMetrics
        ⟨Except.error "网络异常", Except.ok 0, Except.ok 0, Except.ok 0,
          Except.ok 0, Except.ok 0⟩ = Except.error "网络异常" ∧
      monitor_portfolio_risk [some "510300"]
        ⟨Except.error "网络异常", Except.ok 0, Except.ok 0, Except.ok 0,
          Except.ok 0, Except.ok 0⟩ = failureSnapshot "网络异常" :=
  ⟨rfl, rfl,
    (monitor_portfolio_risk_failsafe [some "510300"]
      ⟨Except.error "网络异常", Except.ok 0, Except.ok 0, Except.ok 0,
        Except.ok 0, Except.ok 0⟩ "网络异常" rfl rfl).1⟩

/-- C10: the failure snapshot carries exactly the keys
`overall_risk_level`, `error`, `risk_alert`; each of the six numeric
metric keys is absent; and the numeric-metric reads performed by
`generate_position_suggestion` and `generate_detailed_messages` on such
a snapshot fail with a `KeyError` on the missing
`portfolio_volatility` key. -/
theorem failure_snapshot_missing_metrics (e : String) :
    (failureSnapshot e).map Prod.fst =
        ["overall_risk_level", "error", "risk_alert"] ∧
      (∀ k ∈ (["portfolio_volatility", "var_1d", "max_drawdown_warning",
          "liquidity_risk", "tracking_risk", "correlation_risk"] :
            List String),
        (failureSnapshot e).lookup k = none) ∧
      suggestionVolRead (failureSnapshot e) =
        Except.error "KeyError: portfolio_volatility" ∧
      messagesMetricReads (failureSnapshot e) =
        Except.error "KeyError: portfolio_volatility" := by
  refine ⟨rfl, ?_, rfl, rfl⟩
  intro k hk
  fin_cases hk <;> rfl

/-- Witness for `failure_snapshot_missing_metrics` at a concrete error
message. -/
theorem failure_snapshot_missing_metrics_witness :
    (failureSnapshot "磁盘读取失败").map Prod.fst =
        ["overall_risk_level", "error", "risk_alert"] ∧
      (∀ k ∈ (["portfolio_volatility", "var_1d", "max_drawdown_warning",
          "liquidity_risk", "tracking_risk", "correlation_risk"] :
            List String),
        (failureSnapshot "磁盘读取失败").lookup k = none) ∧
      suggestionVolRead (failureSnapshot "磁盘读取失败") =
        Except.error "KeyError: portfolio_volatility" ∧
      messagesMetricReads (failureSnapshot "磁盘读取失败") =
        Except.error "KeyError: portfolio_volatility" :=
  failure_snapshot_missing_metrics "磁盘读取失败"

end KarmyGold

namespace KarmyGold

/-! ## Real-valued scoring pipeline — `src/etf_scoring.py`

Floats with NaN are modelled by `F := Option ℝ` (`none` is NaN).  The
IEEE infinities only arise in this code through division by a zero
price/volume/mean; each such site is embedded by an explicit branch
that follows the float result to its (always finite or NaN) effect on
the function's return value, with a comment at the site. -/

noncomputable section


/-- A float that may be NaN. -/
abbrev F := Option ℝ

/-- Float addition; NaN propagates. -/
def fAdd : F → F → F
  | some x, some y => some (x + y)
  | _, _ => none

/-- Float subtraction; NaN propagates. -/
def fSub : F → F → F
  | some x, some y => some (x - y)
  | _, _ => none

/-- Float multiplication; NaN propagates. -/
def fMul : F → F → F
  | some x, some y => some (x * y)
  | _, _ => none

/-- Float division; NaN propagates.  Every division site with a
possibly-zero denominator is branched explicitly at its use site, so
this operation is only reached with nonzero denominators. -/
def fDiv : F → F → F
  | some x, some y => some (x / y)
  | _, _ => none

/-- Python's built-in `max(a, b)`: `b` is returned only when `b > a`
evaluates to `True`, so a NaN in either argument keeps the FIRST
argument (`max(0, nan) = 0`, `max(nan, 0) = nan`). -/
def pymax : F → F → F
  | some x, some y => some (max x y)
  | a, _ => a

/-- Python's built-in `min(a, b)`: `b` is returned only when `b < a`
evaluates to `True`; NaN behaviour mirrors `pymax`. -/
def pymin : F → F → F
  | some x, some y => some (min x y)
  | a, _ => a

@[simp] lemma fAdd_some_some (x y : ℝ) : fAdd (some x) (some y) = some (x + y) := rfl
@[simp] lemma fAdd_none_left (b : F) : fAdd none b = none := rfl
@[simp] lemma fAdd_none_right (a : F) : fAdd a none = none := by cases a <;> rfl
@[simp] lemma fSub_some_some (x y : ℝ) : fSub (some x) (some y) = some (x - y) := rfl
@[simp] lemma fSub_none_left (b : F) : fSub none b = none := rfl
@[simp] lemma fSub_none_right (a : F) : fSub a none = none := by cases a <;> rfl
@[simp] lemma fMul_some_some (x y : ℝ) : fMul (some x) (some y) = some (x * y) := rfl
@[simp] lemma fMul_none_left (b : F) : fMul none b = none := rfl
@[simp] lemma fMul_none_right (a : F) : fMul a none = none := by cases a <;> rfl
@[simp] lemma fDiv_some_some (x y : ℝ) : fDiv (some x) (some y) = some (x / y) := rfl
@[simp] lemma fDiv_none_left (b : F) : fDiv none b = none := rfl
@[simp] lemma fDiv_none_right (a : F) : fDiv a none = none := by cases a <;> rfl
@[simp] lemma pymax_some_some (x y : ℝ) : pymax (some x) (some y) = some (max x y) := rfl
@[simp] lemma pymax_some_none (x : ℝ) : pymax (some x) none = some x := rfl
@[simp] lemma pymax_none_left (b : F) : pymax none b = none := by cases b <;> rfl
@[simp] lemma pymin_some_some (x y : ℝ) : pymin (some x) (some y) = some (min x y) := rfl
@[simp] lemma pymin_some_none (x : ℝ) : pymin (some x) none = some x := rfl
@[simp] lemma pymin_none_left (b : F) : pymin none b = none := by cases b <;> rfl

/-- Python's `round(x, d)`: round half to even at `d` decimal places. -/
def pyRound (d : ℕ) (x : ℝ) : ℝ :=
  let y := x * 10 ^ d
  (if Int.fract y = 1 / 2 then
    (if 2 ∣ ⌊y⌋ then (⌊y⌋ : ℝ) else (⌊y⌋ : ℝ) + 1)
  else ((round y : ℤ) : ℝ)) / 10 ^ d

/-- pandas `Series.mean()`: NaN on an empty column. -/
def pyMean (l : List ℝ) : F :=
  if l.isEmpty then none else some (l.sum / l.length)

/-- pandas `Series.std()` (sample standard deviation, `ddof=1`): NaN
with fewer than two observations. -/
def pyStd (l : List ℝ) : F :=
  if l.length < 2 then none
  else some (Real.sqrt
    ((l.map (fun x => (x - l.sum / l.length) ^ 2)).sum / ((l.length : ℝ) - 1)))

/-- `np.mean` of a nonempty list (population mean). -/
def npMean (l : List ℝ) : ℝ := l.sum / l.length

/-- `np.std` of a nonempty list (population standard deviation,
`ddof=0`). -/
def npStd (l : List ℝ) : ℝ :=
  Real.sqrt ((l.map (fun x => (x - l.sum / l.length) ^ 2)).sum / (l.length : ℝ))

/-- `Series.pct_change()` without its leading NaN slot: the `n − 1`
ratios `c[i]/c[i−1] − 1`.  When a price other than the last is zero,
the float pipeline produces ±inf (or NaN for 0/0) entries that turn
every downstream `std`/`corr` into NaN; that contamination is modelled
by `none` for the whole list. -/
def dailyReturns (c : List ℝ) : Option (List ℝ) :=
  if (0 : ℝ) ∈ c.dropLast then none
  else some (List.zipWith (fun p q => q / p - 1) c c.tail)

/-- pandas `Series.corr` of two equal-length series: sample Pearson
correlation; NaN when there are fewer than two pairs or either series
has zero variance. -/
def pyCorr (a b : List ℝ) : F :=
  let k := min a.length b.length
  let xs := a.take k
  let ys := b.take k
  let mx := xs.sum / k
  let my := ys.sum / k
  let sxx := (xs.map (fun x => (x - mx) ^ 2)).sum
  let syy := (ys.map (fun y => (y - my) ^ 2)).sum
  let sxy := (List.zipWith (fun x y => (x - mx) * (y - my)) xs ys).sum
  if k < 2 ∨ sxx = 0 ∨ syy = 0 then none
  else some (sxy / (Real.sqrt sxx * Real.sqrt syy))

/-- A pandas data frame, as the scoring code reads it: a row count and
one optional column per standard column name the scoring functions
touch (`none` = column absent).  `trackingErrEn` is the literal
`"tracking_error"` column that `calculate_tracking_score` writes (the
standard 跟踪误差 column is `trackingErr`).  `hlen`: every present
column has `n` rows. -/
structure DataFrame where
  n : ℕ
  date : Option (List ℝ)
  close : Option (List ℝ)
  volume : Option (List ℝ)
  amount : Option (List ℝ)
  spread : Option (List ℝ)
  bidVolume : Option (List ℝ)
  askVolume : Option (List ℝ)
  turnover : Option (List ℝ)
  indexClose : Option (List ℝ)
  trackingErr : Option (List ℝ)
  trackingErrEn : Option (List ℝ)
  hlen : ∀ l : List ℝ,
    (close = some l ∨ volume = some l ∨ amount = some l ∨ spread = some l ∨
     bidVolume = some l ∨ askVolume = some l ∨ turnover = some l ∨
     indexClose = some l ∨ trackingErr = some l) → l.length = n

end

end KarmyGold

namespace KarmyGold

noncomputable section


/-- `calculate_liquidity_score` (`src/etf_scoring.py`, lines 491–560):
amount score clamped to [0,100]; spread score `max(0, 100 − mean·10⁴)`
(NOT clamped above); depth score from `log(depth+1)·20` clamped, with
default 50 unless both book columns have positive means; turnover score
clamped; weighted 0.4/0.3/0.2/0.1 and rounded to 2 decimals.  Absent
columns give the fixed defaults 50/60/50/50.  The final value is NOT
clamped. -/
def liqVolumeScore (df : DataFrame) : F :=
  match df.amount with
  | some l =>
    pymin (pymax (fAdd (fMul (fDiv (pyMean l) (some 10000)) (some 0.01)) (some 50))
      (some 0)) (some 100)
  | none => some 50

/-- The `spread_score` local of `calculate_liquidity_score`:
`max(0, 100 − mean·10⁴)` — clamped below only. -/
def liqSpreadScore (df : DataFrame) : F :=
  match df.spread with
  | some l => pymax (some 0) (fSub (some 100) (fMul (pyMean l) (some 10000)))
  | none => some 60

/-- The `bid_volume` local of `calculate_liquidity_score` (initialised
0.0, replaced by the column mean when the column is present). -/
def liqBidVolume (df : DataFrame) : F :=
  match df.bidVolume with
  | some l => pyMean l
  | none => some 0

/-- The `ask_volume` local of `calculate_liquidity_score`. -/
def liqAskVolume (df : DataFrame) : F :=
  match df.askVolume with
  | some l => pyMean l
  | none => some 0

/-- The float test `x > 0`: `False` on NaN. -/
def fGtZero (a : F) : Bool :=
  match a with
  | some x => decide (0 < x)
  | none => false

/-- The `depth_score` local of `calculate_liquidity_score`:
`clamp(log(depth+1)·20, 0, 100)` when both book means test positive
(a NaN mean fails the `>` test), else 50. -/
def liqDepthScore (df : DataFrame) : F :=
  if fGtZero (liqBidVolume df) && fGtZero (liqAskVolume df) then
    pymin (pymax (fMul ((fAdd (fDiv (fAdd (liqBidVolume df) (liqAskVolume df))
      (some 2)) (some 1)).map Real.log) (some 20)) (some 0)) (some 100)
  else some 50

/-- The `turnover_score` local of `calculate_liquidity_score`. -/
def liqTurnoverScore (df : DataFrame) : F :=
  match df.turnover with
  | some l => pymin (pymax (fMul (pyMean l) (some 1000)) (some 0)) (some 100)
  | none => some 50

def calculate_liquidity_score (df : DataFrame) : F :=
  (fAdd (fAdd (fAdd (fMul (liqVolumeScore df) (some 0.4))
    (fMul (liqSpreadScore df) (some 0.3)))
    (fMul (liqDepthScore df) (some 0.2)))
    (fMul (liqTurnoverScore df) (some 0.1))).map (pyRound 2)

/-- The un-rounded annualised volatility
`df["daily_return"].std() * np.sqrt(252)` shared by
`calculate_volatility` and the Sharpe computation. -/
def volCore (c : List ℝ) : F :=
  match dailyReturns c with
  | none => none
  | some r => (pyStd r).map (fun s => s * Real.sqrt 252)

/-- `calculate_volatility` (`src/etf_scoring.py`, lines 896–920):
0.0 when the close column is absent, otherwise the sample standard
deviation of daily returns annualised by √252 and rounded to 4
decimals (NaN stays NaN). -/
def calculate_volatility (df : DataFrame) : F :=
  match df.close with
  | none => some 0
  | some c => (volCore c).map (pyRound 4)

/-- `calculate_sharpe_ratio` (`src/etf_scoring.py`, lines 923–960),
shortened to `calculate_sharpe` here: 0.0 when the close column is
absent; the `IndexError` of `iloc[-1]` on an empty frame and the
NaN-producing power on a negative price ratio with a fractional
exponent both end in the `except`/NaN paths; otherwise
`(last/first)^(252/n) − 1` divided by the annualised volatility when
that volatility is a number > 0, else 0.0; rounded to 4 decimals. -/
def calculate_sharpe (df : DataFrame) : F :=
  match df.close with
  | none => some 0
  | some c =>
    if c.isEmpty then some 0
    else
      let first := c.headD 0
      let last := c.getLastD 0
      if first = 0 then none
        -- np.float64: last/±0 is ±inf (or NaN for 0/0); the power and
        -- division keep it non-finite; collapsed to NaN (the claims
        -- restrict to positive prices, where this branch is dead)
      else
        let ratio := last / first
        let e : ℝ := 252 / df.n
        letI : Decidable (ratio < 0 ∧ ¬ (∃ k : ℤ, e = (k : ℝ))) :=
          Classical.dec _
        if ratio < 0 ∧ ¬ (∃ k : ℤ, e = (k : ℝ)) then none
          -- np.float64 `**`: negative base with non-integral exponent is NaN
        else
          let annual_return := Real.rpow ratio e - 1
          match volCore c with
          | some v =>
            if 0 < v then some (pyRound 4 ((annual_return - 0) / v))
            else some 0
          | none => some 0
            -- `if volatility > 0:` is False for NaN volatility → 0.0

/-- Cumulative products `cumprod` of a list (no seed element). -/
def cumprod (l : List ℝ) : List ℝ := (l.scanl (· * ·) 1).tail

/-- Running maximum `cummax` of a list. -/
def runMaxAux (m : ℝ) : List ℝ → List ℝ
  | [] => []
  | y :: ys => max m y :: runMaxAux (max m y) ys

/-- Running maximum `cummax` of a list. -/
def runningMax : List ℝ → List ℝ
  | [] => []
  | x :: xs => x :: runMaxAux x xs

/-- pandas `Series.max()` (skipna): NaN entries are skipped; all-NaN
(or empty) gives NaN. -/
def pyMaxSkipNa (l : List F) : F :=
  l.foldl
    (fun acc x =>
      match acc, x with
      | none, v => v
      | some a, some b => some (max a b)
      | some a, none => some a)
    none

/-- `calculate_max_drawdown` (`src/etf_scoring.py`, lines 961–988):
0.0 when the close column is absent; otherwise
`cum = (1 + pct_change).cumprod()` (the leading NaN slot is skipped by
the skipna cumulation), `drawdown = 1 − cum/cummax`, and
`round(drawdown.max(), 4)`.  A zero running maximum can only happen on
a last-price-of-zero frame, where the float entry is 0/0 = NaN;
that entry is `none` here and skipped by the max, as pandas does. -/
def calculate_max_drawdown (df : DataFrame) : F :=
  match df.close with
  | none => some 0
  | some c =>
    match dailyReturns c with
    | none => none
    | some r =>
      let cum := cumprod (r.map (fun x => 1 + x))
      let cmax := runningMax cum
      let drawdown : List F :=
        List.zipWith (fun p m => if m = 0 then none else some (1 - p / m)) cum cmax
      (pyMaxSkipNa drawdown).map (pyRound 4)

/-- `calculate_risk_score` (`src/etf_scoring.py`, lines 562–591):
`0.4·max(0, 100 − vol·100) + 0.4·clamp(sharpe·50, 0, 100) +
0.2·max(0, 100 − mdd·500)`, rounded to 2 decimals.  Not clamped as a
whole. -/
def calculate_risk_score (df : DataFrame) : F :=
  let volatility := calculate_volatility df
  let volatility_score := pymax (some 0) (fSub (some 100) (fMul volatility (some 100)))
  let sharpe := calculate_sharpe df
  let sharpe_score := pymin (pymax (fMul sharpe (some 50)) (some 0)) (some 100)
  let max_drawdown := calculate_max_drawdown df
  let drawdown_score := pymax (some 0) (fSub (some 100) (fMul max_drawdown (some 500)))
  (fAdd (fAdd (fMul volatility_score (some 0.4)) (fMul sharpe_score (some 0.4)))
    (fMul drawdown_score (some 0.2))).map (pyRound 2)

/-- `calculate_return_score` (`src/etf_scoring.py`, lines 593–624):
0.0 unless both close and date columns are present; the `IndexError`
on an empty frame is caught → 0.0; otherwise the 30-day return is fed
to a sigmoid, scaled by 150 and clamped to [0, 100].  A zero first
price gives a ±inf return whose sigmoid saturates the clamp. -/
def calculate_return_score (df : DataFrame) : F :=
  match df.close, df.date with
  | some c, some _ =>
    if c.isEmpty then some 0
    else
      let first := c.headD 0
      let last := c.getLastD 0
      if first = 0 then
        (if last = 0 then none
         else if 0 < last then some 100 else some 0)
        -- np.float64: last/+0 = ±inf; sigmoid(+inf)·150 clamps to 100,
        -- sigmoid(−inf)·150 = 0; 0/0 is NaN
      else
        let return_30d := (last / first - 1) * 100
        let sigmoid := 1 / (1 + Real.exp (-(0.2) * (return_30d - 2.5)))
        pymin (pymax (some (sigmoid * 150)) (some 0)) (some 100)
  | _, _ => some 0

/-- `calculate_sentiment_score` (`src/etf_scoring.py`, lines 626–654):
50.0 when the volume column is absent; 50 with fewer than 5 rows;
otherwise the 5-day volume change is fed to a sigmoid (`·100 + 50`)
and the result clamped to [0, 100].  A zero 5-days-ago volume gives a
±inf change whose sigmoid saturates. -/
def calculate_sentiment_score (df : DataFrame) : F :=
  match df.volume with
  | none => some 50
  | some v =>
    if 5 ≤ df.n then
      let vlast := v.getLastD 0
      let v5 := v.getD (v.length - 5) 0
      if v5 = 0 then
        (if vlast = 0 then none
         else if 0 < vlast then some 100 else some 50)
        -- np.float64: vlast/+0 = ±inf; sigmoid(+inf)·100+50 clamps to
        -- 100, sigmoid(−inf)·100+50 = 50; 0/0 is NaN
      else
        let volume_change := (vlast / v5 - 1) * 100
        let sigmoid := 1 / (1 + Real.exp (-(0.1) * (volume_change - 0)))
        pymin (pymax (some (sigmoid * 100 + 50)) (some 0)) (some 100)
    else pymin (pymax (some 50) (some 0)) (some 100)

/-- `calculate_tracking_score` (`src/etf_scoring.py`, lines 656–702):
tracking error from the 跟踪误差 column, else from `close − index`
(else return 60.0); ETF–index correlation of daily returns when both
columns are present, else the fixed 0.8; a fund size of −10 makes the
size-weight division raise → except → 60.0; error score
`max(0, 100 − te·1000)`, correlation score `min(corr·100, 100)`,
combined `(0.6/0.4)`-weighted, boosted by `(1 + size_weight)` and
clamped to [0, 100].  `size` is the fund size that
`get_etf_basic_info` returns. -/
def calculate_tracking_score (df : DataFrame) (size : ℝ) : F :=
  let te : Option F :=
    match df.trackingErr with
    | some l => some (pyStd l)
    | none =>
      match df.close, df.indexClose with
      | some c, some ic => some (pyStd (List.zipWith (fun a b => a - b) c ic))
      | _, _ => none
  match te with
  | none => some 60
  | some tracking_error =>
    let correlation : F :=
      match df.close, df.indexClose with
      | some c, some ic =>
        (match dailyReturns c, dailyReturns ic with
         | some rc, some ric => pyCorr rc ric
         | _, _ => none)
        -- a zero price: the pct_change series carries ±inf and the
        -- float correlation is NaN
      | _, _ => some 0.8
    if 1 + size / 10 = 0 then some 60
      -- ZeroDivisionError in `1.0/(1.0 + etf_size/10.0)` → except → 60.0
    else
      let size_weight : ℝ := 1 / (1 + size / 10)
      let error_score := pymax (some 0) (fSub (some 100) (fMul tracking_error (some 1000)))
      let correlation_score := pymin (fMul correlation (some 100)) (some 100)
      let tracking_score :=
        fMul (fAdd (fMul error_score (some 0.6)) (fMul correlation_score (some 0.4)))
          (some (1 + size_weight))
      pymin (pymax tracking_score (some 0)) (some 100)

/-- `calculate_stability_score` (`src/etf_scoring.py`, lines 704–740):
50.0 with no size history; a zero first size raises in the growth
ratio → except → 50.0; growth score clamped to [0,100]; stability
sub-score `max(0, 100 − (std/mean)·500)` with the zero-mean float
division giving +inf → sub-score 0; combined 0.4/0.6 and clamped to
[0, 100].  `size_history` is what `get_etf_size_history` returns. -/
def calculate_stability_score (size_history : List ℝ) : F :=
  if size_history.isEmpty then some 50
  else
    let first := size_history.headD 0
    let last := size_history.getLastD 0
    if first = 0 then some 50
    else
      let size_growth := (last - first) / first
      let m := npMean size_history
      let sd := npStd size_history
      let growth_score := min (max (size_growth * 100) 0) 100
      let stability2 : ℝ :=
        if m = 0 then 0
          -- np: sd/±0 = +inf here (sd > 0 whenever the mean is 0 but
          -- the first element is not), and max(0, 100 − inf·500) = 0
        else max 0 (100 - sd / m * 500)
      some (min (max (growth_score * 0.4 + stability2 * 0.6) 0) 100)

end

end KarmyGold

namespace KarmyGold

noncomputable section


/-- Rounding a nonnegative real stays nonnegative. -/
lemma pyRound_nonneg (d : ℕ) {x : ℝ} (hx : 0 ≤ x) : 0 ≤ pyRound d x := by
  have h10 : (0 : ℝ) < 10 ^ d := by positivity
  have hy : 0 ≤ x * 10 ^ d := by positivity
  simp only [pyRound]
  apply div_nonneg _ h10.le
  split
  · split
    · exact_mod_cast Int.floor_nonneg.mpr hy
    · have h1 : (0 : ℤ) ≤ ⌊x * 10 ^ d⌋ := Int.floor_nonneg.mpr hy
      have h2 : (0 : ℝ) ≤ (⌊x * 10 ^ d⌋ : ℝ) := by exact_mod_cast h1
      linarith
  · rw [round_eq]
    have h1 : (0 : ℤ) ≤ ⌊x * 10 ^ d + 1 / 2⌋ :=
      Int.floor_nonneg.mpr (by linarith)
    exact_mod_cast h1

/-- Rounding a real that is at most the natural number `k` stays at
most `k`. -/
lemma pyRound_le_nat (d k : ℕ) {x : ℝ} (hx : x ≤ (k : ℝ)) :
    pyRound d x ≤ (k : ℝ) := by
  have h10 : (0 : ℝ) < 10 ^ d := by positivity
  have hy : x * 10 ^ d ≤ (k : ℝ) * 10 ^ d :=
    mul_le_mul_of_nonneg_right hx h10.le
  have hK : (((k : ℤ) * 10 ^ d : ℤ) : ℝ) = (k : ℝ) * 10 ^ d := by push_cast; ring
  simp only [pyRound]
  rw [div_le_iff₀ h10]
  split
  case isTrue hfr =>
    have hfl : (⌊x * 10 ^ d⌋ : ℝ) = x * 10 ^ d - 1 / 2 := by
      have := Int.self_sub_floor (x * 10 ^ d)
      rw [hfr] at this
      linarith
    have hlt : ⌊x * 10 ^ d⌋ < (k : ℤ) * 10 ^ d := by
      have : (⌊x * 10 ^ d⌋ : ℝ) < (((k : ℤ) * 10 ^ d : ℤ) : ℝ) := by
        rw [hK, hfl]; linarith
      exact_mod_cast this
    have hle : (⌊x * 10 ^ d⌋ : ℝ) + 1 ≤ (k : ℝ) * 10 ^ d := by
      have : ⌊x * 10 ^ d⌋ + 1 ≤ (k : ℤ) * 10 ^ d := hlt
      calc (⌊x * 10 ^ d⌋ : ℝ) + 1 = ((⌊x * 10 ^ d⌋ + 1 : ℤ) : ℝ) := by push_cast; ring
        _ ≤ (((k : ℤ) * 10 ^ d : ℤ) : ℝ) := by exact_mod_cast this
        _ = (k : ℝ) * 10 ^ d := hK
    split
    · linarith
    · exact hle
  case isFalse hfr =>
    rw [round_eq]
    have h1 : ⌊x * 10 ^ d + 1 / 2⌋ ≤ (k : ℤ) * 10 ^ d := by
      rw [Int.floor_le_iff]
      push_cast
      linarith
    calc ((⌊x * 10 ^ d + 1 / 2⌋ : ℤ) : ℝ) ≤ (((k : ℤ) * 10 ^ d : ℤ) : ℝ) := by
          exact_mod_cast h1
      _ = (k : ℝ) * 10 ^ d := hK

/-- Rounding fixes integers. -/
lemma pyRound_intCast (d : ℕ) (k : ℤ) : pyRound d ((k : ℤ) : ℝ) = k := by
  have h10 : (10 : ℝ) ^ d ≠ 0 := by positivity
  have hy : ((k : ℝ)) * 10 ^ d = ((k * 10 ^ d : ℤ) : ℝ) := by push_cast; ring
  simp only [pyRound, hy, Int.fract_intCast]
  rw [if_neg (by norm_num), round_intCast]
  field_simp

/-- `0 ≤ clamp(t, 0, 100) ≤ 100` for any real `t`. -/
lemma clamp_bounds (t : ℝ) :
    0 ≤ min (max t 0) 100 ∧ min (max t 0) 100 ≤ 100 :=
  ⟨le_min (le_max_right _ _) (by norm_num), min_le_right _ _⟩

/-- The clamped float pipeline `min(max(some t, 0), 100)` is a number
in [0, 100]. -/
lemma clampF_bounds (t : ℝ) :
    ∃ x, pymin (pymax (some t) (some 0)) (some 100) = some x ∧
      0 ≤ x ∧ x ≤ 100 :=
  ⟨min (max t 0) 100, by simp, (clamp_bounds t).1, (clamp_bounds t).2⟩

/-- `min(max(ts, 0), 100) = some x` forces `x ∈ [0, 100]` for any
float `ts`. -/
lemma clampF_of_eq_some {ts : F} {x : ℝ}
    (h : pymin (pymax ts (some 0)) (some 100) = some x) :
    0 ≤ x ∧ x ≤ 100 := by
  cases ts with
  | none => simp at h
  | some t =>
    simp only [pymax_some_some, pymin_some_some, Option.some.injEq] at h
    subst h
    exact clamp_bounds t

/-- `max(0, 100 − m·c)` is a number in [0, 100] whenever the float `m`
is NaN or a nonnegative number and `c ≥ 0`. -/
lemma pymax_zero_sub_bounds (m : F) (c : ℝ) (hc : 0 ≤ c)
    (hm : m = none ∨ ∃ v, m = some v ∧ 0 ≤ v) :
    ∃ a, pymax (some 0) (fSub (some 100) (fMul m (some c))) = some a ∧
      0 ≤ a ∧ a ≤ 100 := by
  rcases hm with rfl | ⟨v, rfl, hv⟩
  · exact ⟨0, by simp, le_refl 0, by norm_num⟩
  · refine ⟨max 0 (100 - v * c), by simp, le_max_left _ _, ?_⟩
    have : v * c ≥ 0 := mul_nonneg hv hc
    apply max_le (by norm_num)
    linarith

/-- A member of a list bounds `pyMaxSkipNa` from below (fold
invariant). -/
lemma pyMaxSkipNa_of_mem {a : ℝ} :
    ∀ (l : List F) (acc : F),
      ((∃ b, acc = some b ∧ a ≤ b) ∨ some a ∈ l) →
      ∃ d, l.foldl
        (fun acc x =>
          match acc, x with
          | none, v => v
          | some a, some b => some (max a b)
          | some a, none => some a) acc = some d ∧ a ≤ d := by
  intro l
  induction l with
  | nil =>
    intro acc h
    rcases h with ⟨b, rfl, hab⟩ | h
    · exact ⟨b, rfl, hab⟩
    · simp at h
  | cons x xs ih =>
    intro acc h
    rcases h with ⟨b, rfl, hab⟩ | h
    · cases x with
      | none => exact ih (some b) (Or.inl ⟨b, rfl, hab⟩)
      | some y =>
        exact ih (some (max b y))
          (Or.inl ⟨max b y, rfl, le_trans hab (le_max_left b y)⟩)
    · rcases List.mem_cons.mp h with rfl | hmem
      · cases acc with
        | none => exact ih (some a) (Or.inl ⟨a, rfl, le_refl a⟩)
        | some b =>
          exact ih (some (max b a))
            (Or.inl ⟨max b a, rfl, le_max_right b a⟩)
      · cases acc with
        | none => exact ih x (Or.inr hmem)
        | some b =>
          cases x with
          | none => exact ih (some b) (Or.inr hmem)
          | some y => exact ih (some (max b y)) (Or.inr hmem)

/-- `pyMaxSkipNa` of a list containing the number `a` is a number
`≥ a`. -/
lemma pyMaxSkipNa_mem_le {l : List F} {a : ℝ} (h : some a ∈ l) :
    ∃ d, pyMaxSkipNa l = some d ∧ a ≤ d :=
  pyMaxSkipNa_of_mem l none (Or.inr h)

/-- Every entry of `scanl (·*·)` from a positive seed over positive
factors is positive. -/
lemma scanl_mul_pos :
    ∀ (l : List ℝ) (b : ℝ), 0 < b → (∀ t ∈ l, 0 < t) →
      ∀ p ∈ l.scanl (· * ·) b, 0 < p := by
  intro l
  induction l with
  | nil =>
    intro b hb _ p hp
    simp only [List.scanl_nil, List.mem_singleton] at hp
    exact hp ▸ hb
  | cons t ts ih =>
    intro b hb hl p hp
    simp only [List.scanl_cons, List.singleton_append, List.mem_cons] at hp
    rcases hp with rfl | hp
    · exact hb
    · exact ih (b * t) (mul_pos hb (hl t (List.mem_cons_self t ts)))
        (fun u hu => hl u (List.mem_cons_of_mem t hu)) p hp

end

end KarmyGold

namespace KarmyGold

noncomputable section


/-- `headD` of a nonempty list is a member. -/
lemma headD_mem {l : List ℝ} (h : l ≠ []) (d : ℝ) : l.headD d ∈ l := by
  cases l with
  | nil => simp at h
  | cons a t => simp

/-- `getLastD` of a nonempty list is a member. -/
lemma getLastD_mem : ∀ {l : List ℝ}, l ≠ [] → ∀ d : ℝ, l.getLastD d ∈ l
  | [], h, _ => absurd rfl h
  | [a], _, d => by simp
  | a :: b :: t, _, d => by
    rw [List.getLastD_cons]
    exact List.mem_cons_of_mem a (getLastD_mem (by simp) b)

/-- `getD` at an in-range index is a member. -/
lemma getD_mem {l : List ℝ} {i : ℕ} (h : i < l.length) (d : ℝ) :
    l.getD i d ∈ l := by
  rw [List.getD_eq_getElem l d h]
  exact List.getElem_mem h

/-- The mean of a nonempty column is a number. -/
lemma pyMean_some {l : List ℝ} (h : l ≠ []) :
    pyMean l = some (l.sum / l.length) := by
  simp [pyMean, h]

/-- A present column of a frame with at least one row is nonempty. -/
lemma col_ne_nil {df : DataFrame} {l : List ℝ} (hn : 1 ≤ df.n)
    (h : df.close = some l ∨ df.volume = some l ∨ df.amount = some l ∨
      df.spread = some l ∨ df.bidVolume = some l ∨ df.askVolume = some l ∨
      df.turnover = some l ∨ df.indexClose = some l ∨
      df.trackingErr = some l) : l ≠ [] := by
  have := df.hlen l h
  intro hnil
  rw [hnil] at this
  simp at this
  omega

/-- Amount sub-score of liquidity: a number in [0, 100]. -/
lemma liqVolumeScore_bounds (df : DataFrame) (hn : 1 ≤ df.n) :
    ∃ a, liqVolumeScore df = some a ∧ 0 ≤ a ∧ a ≤ 100 := by
  cases hA : df.amount with
  | none => exact ⟨50, by simp [liqVolumeScore, hA], by norm_num, by norm_num⟩
  | some l =>
    have hne : l ≠ [] :=
      col_ne_nil hn (Or.inr (Or.inr (Or.inl hA)))
    obtain ⟨x, hx, h0, h100⟩ :=
      clampF_bounds ((l.sum / l.length) / 10000 * 0.01 + 50)
    exact ⟨x, by simpa [liqVolumeScore, hA, pyMean_some hne] using hx, h0, h100⟩

/-- Spread sub-score of liquidity: a number in [0, 100] when the
spread values are nonnegative. -/
lemma liqSpreadScore_bounds (df : DataFrame) (hn : 1 ≤ df.n)
    (hspread : ∀ l, df.spread = some l → ∀ x ∈ l, 0 ≤ x) :
    ∃ a, liqSpreadScore df = some a ∧ 0 ≤ a ∧ a ≤ 100 := by
  cases hS : df.spread with
  | none => exact ⟨60, by simp [liqSpreadScore, hS], by norm_num, by norm_num⟩
  | some l =>
    have hne : l ≠ [] :=
      col_ne_nil hn (Or.inr (Or.inr (Or.inr (Or.inl hS))))
    have hmean : 0 ≤ l.sum / l.length :=
      div_nonneg (List.sum_nonneg (hspread l hS)) (by positivity)
    refine ⟨max 0 (100 - l.sum / l.length * 10000),
      by simp [liqSpreadScore, hS, pyMean_some hne], le_max_left _ _, ?_⟩
    apply max_le (by norm_num)
    nlinarith

/-- `fGtZero` tests a positive number. -/
lemma fGtZero_iff (a : F) : fGtZero a = true ↔ ∃ x, a = some x ∧ 0 < x := by
  cases a <;> simp [fGtZero]

/-- Depth sub-score of liquidity: a number in [0, 100]. -/
lemma liqDepthScore_bounds (df : DataFrame) :
    ∃ a, liqDepthScore df = some a ∧ 0 ≤ a ∧ a ≤ 100 := by
  by_cases hcond :
      (fGtZero (liqBidVolume df) && fGtZero (liqAskVolume df)) = true
  · have hcond2 := hcond
    rw [Bool.and_eq_true, fGtZero_iff, fGtZero_iff] at hcond2
    obtain ⟨⟨x, hx, _⟩, ⟨y, hy, _⟩⟩ := hcond2
    obtain ⟨a, ha, h0, h100⟩ :=
      clampF_bounds (Real.log ((x + y) / 2 + 1) * 20)
    refine ⟨a, ?_, h0, h100⟩
    rw [liqDepthScore, if_pos hcond, hx, hy]
    simpa using ha
  · exact ⟨50, by rw [liqDepthScore, if_neg hcond], by norm_num, by norm_num⟩

/-- Turnover sub-score of liquidity: a number in [0, 100]. -/
lemma liqTurnoverScore_bounds (df : DataFrame) (hn : 1 ≤ df.n) :
    ∃ a, liqTurnoverScore df = some a ∧ 0 ≤ a ∧ a ≤ 100 := by
  cases hT : df.turnover with
  | none => exact ⟨50, by simp [liqTurnoverScore, hT], by norm_num, by norm_num⟩
  | some l =>
    have hne : l ≠ [] :=
      col_ne_nil hn (Or.inr (Or.inr (Or.inr (Or.inr (Or.inr (Or.inr
        (Or.inl hT)))))))
    obtain ⟨x, hx, h0, h100⟩ := clampF_bounds (l.sum / l.length * 1000)
    exact ⟨x, by simpa [liqTurnoverScore, hT, pyMean_some hne] using hx,
      h0, h100⟩

/-- The liquidity score is a number in [0, 100] for a nonempty frame
with nonnegative spread values. -/
lemma liquidity_bounds (df : DataFrame) (hn : 1 ≤ df.n)
    (hspread : ∀ l, df.spread = some l → ∀ x ∈ l, 0 ≤ x) :
    ∃ x, calculate_liquidity_score df = some x ∧ 0 ≤ x ∧ x ≤ 100 := by
  obtain ⟨a, hA, a0, a100⟩ := liqVolumeScore_bounds df hn
  obtain ⟨b, hB, b0, b100⟩ := liqSpreadScore_bounds df hn hspread
  obtain ⟨c, hC, c0, c100⟩ := liqDepthScore_bounds df
  obtain ⟨d, hD, d0, d100⟩ := liqTurnoverScore_bounds df hn
  refine ⟨pyRound 2 (a * 0.4 + b * 0.3 + c * 0.2 + d * 0.1),
    by simp [calculate_liquidity_score, hA, hB, hC, hD], ?_, ?_⟩
  · exact pyRound_nonneg 2 (by nlinarith)
  · have h := pyRound_le_nat 2 100 (x := a * 0.4 + b * 0.3 + c * 0.2 + d * 0.1)
      (by push_cast; nlinarith)
    exact_mod_cast h

end

end KarmyGold

namespace KarmyGold

noncomputable section


/-- pandas `std` is NaN or a nonnegative number. -/
lemma pyStd_cases (l : List ℝ) :
    pyStd l = none ∨ ∃ s, pyStd l = some s ∧ 0 ≤ s := by
  rw [pyStd]
  split
  · exact Or.inl rfl
  · exact Or.inr ⟨_, rfl, Real.sqrt_nonneg _⟩

/-- The un-rounded annualised volatility is NaN or nonnegative. -/
lemma volCore_cases (c : List ℝ) :
    volCore c = none ∨ ∃ v, volCore c = some v ∧ 0 ≤ v := by
  cases hd : dailyReturns c with
  | none => left; simp [volCore, hd]
  | some r =>
    rcases pyStd_cases r with h | ⟨s, h, hs⟩
    · left; simp [volCore, hd, h]
    · right
      exact ⟨s * Real.sqrt 252, by simp [volCore, hd, h],
        mul_nonneg hs (Real.sqrt_nonneg _)⟩

/-- `calculate_volatility` is NaN or a nonnegative number. -/
lemma volatility_cases (df : DataFrame) :
    calculate_volatility df = none ∨
      ∃ v, calculate_volatility df = some v ∧ 0 ≤ v := by
  cases hc : df.close with
  | none => exact Or.inr ⟨0, by simp [calculate_volatility, hc], le_refl 0⟩
  | some c =>
    rcases volCore_cases c with h | ⟨v, h, hv⟩
    · left; simp [calculate_volatility, hc, h]
    · right
      exact ⟨pyRound 4 v, by simp [calculate_volatility, hc, h],
        pyRound_nonneg 4 hv⟩

/-- With positive close prices, `calculate_sharpe` always returns a
number (every NaN branch is dead). -/
lemma sharpe_isSome (df : DataFrame)
    (hclose : ∀ l, df.close = some l → ∀ x ∈ l, 0 < x) :
    ∃ s, calculate_sharpe df = some s := by
  cases hc : df.close with
  | none => exact ⟨0, by simp [calculate_sharpe, hc]⟩
  | some c =>
    cases hce : c.isEmpty with
    | true => exact ⟨0, by simp [calculate_sharpe, hc, hce]⟩
    | false =>
      have hcne : c ≠ [] := by
        cases c
        · simp at hce
        · simp
      have hfirst : 0 < c.headD 0 := hclose c hc _ (headD_mem hcne 0)
      have hlast : 0 < c.getLastD 0 := hclose c hc _ (getLastD_mem hcne 0)
      have hratio : 0 < c.getLastD 0 / c.headD 0 := div_pos hlast hfirst
      simp only [calculate_sharpe, hc, hce, Bool.false_eq_true, if_false]
      rw [if_neg hfirst.ne']
      rw [if_neg (fun hand => absurd hand.1 (not_lt.mpr hratio.le))]
      rcases volCore_cases c with h | ⟨v, h, _⟩
      · simp only [h]; exact ⟨0, rfl⟩
      · simp only [h]
        by_cases hv0 : 0 < v
        · rw [if_pos hv0]; exact ⟨_, rfl⟩
        · rw [if_neg hv0]; exact ⟨0, rfl⟩

/-- With positive close prices the elements `1 + pct_change` are
positive. -/
lemma one_add_ret_pos :
    ∀ (c : List ℝ), (∀ x ∈ c, 0 < x) →
      ∀ x ∈ List.zipWith (fun p q => q / p - 1) c c.tail, 0 < 1 + x
  | [], _, x, hx => by simp at hx
  | [a], _, x, hx => by simp at hx
  | a :: b :: t, hc, x, hx => by
    simp only [List.tail_cons, List.zipWith_cons_cons, List.mem_cons] at hx
    rcases hx with rfl | hx
    · have ha : 0 < a := hc a (by simp)
      have hb : 0 < b := hc b (by simp)
      have : 0 < b / a := div_pos hb ha
      linarith
    · exact one_add_ret_pos (b :: t) (fun y hy => hc y (List.mem_cons_of_mem a hy)) x hx

/-- With positive close prices, `calculate_max_drawdown` is NaN or a
nonnegative number. -/
lemma mdd_cases (df : DataFrame)
    (hclose : ∀ l, df.close = some l → ∀ x ∈ l, 0 < x) :
    calculate_max_drawdown df = none ∨
      ∃ v, calculate_max_drawdown df = some v ∧ 0 ≤ v := by
  cases hc : df.close with
  | none => exact Or.inr ⟨0, by simp [calculate_max_drawdown, hc], le_refl 0⟩
  | some c =>
    cases hd : dailyReturns c with
    | none => left; simp [calculate_max_drawdown, hc, hd]
    | some r =>
      have hrq : r = List.zipWith (fun p q => q / p - 1) c c.tail := by
        rw [dailyReturns] at hd
        split at hd
        · exact absurd hd (by simp)
        · exact (Option.some.injEq _ _ ▸ hd).symm
      have hstep : ∀ t ∈ r.map (fun x => 1 + x), 0 < t := by
        intro t ht
        simp only [List.mem_map] at ht
        obtain ⟨x, hx, rfl⟩ := ht
        exact one_add_ret_pos c (hclose c hc) x (hrq ▸ hx)
      cases hr : r.map (fun x => 1 + x) with
      | nil =>
        left
        simp [calculate_max_drawdown, hc, hd, cumprod, hr, pyMaxSkipNa]
      | cons t0 ts =>
        have ht0 : 0 < t0 := hstep t0 (hr ▸ List.mem_cons_self t0 ts)
        have hhead : 0 < 1 * t0 := by linarith
        right
        have hcum : cumprod (r.map (fun x => 1 + x)) =
            (1 * t0) :: (List.scanl (· * ·) (1 * t0) ts).tail := by
          rw [hr, cumprod, List.scanl_cons, List.singleton_append,
            List.tail_cons]
          cases ts with
          | nil => simp
          | cons t1 ts2 =>
            rw [List.scanl_cons, List.singleton_append, List.tail_cons]
        simp only [calculate_max_drawdown, hc, hd, hcum, runningMax,
          List.zipWith_cons_cons]
        rw [if_neg hhead.ne']
        have hdd0 : (1 : ℝ) - 1 * t0 / (1 * t0) = 0 := by
          rw [div_self hhead.ne']; ring
        rw [hdd0]
        obtain ⟨dmax, hdm, hdm0⟩ :=
          pyMaxSkipNa_mem_le (a := 0)
            (List.mem_cons_self (some (0 : ℝ))
              (List.zipWith (fun p m => if m = 0 then none else some (1 - p / m))
                (List.scanl (· * ·) (1 * t0) ts).tail
                (runMaxAux (1 * t0) (List.scanl (· * ·) (1 * t0) ts).tail)))
        rw [hdm]
        exact ⟨pyRound 4 dmax, rfl, pyRound_nonneg 4 hdm0⟩

/-- The risk score is a number in [0, 100] for positive close
prices. -/
lemma risk_bounds (df : DataFrame)
    (hclose : ∀ l, df.close = some l → ∀ x ∈ l, 0 < x) :
    ∃ x, calculate_risk_score df = some x ∧ 0 ≤ x ∧ x ≤ 100 := by
  obtain ⟨a, hA, a0, a100⟩ :=
    pymax_zero_sub_bounds (calculate_volatility df) 100 (by norm_num)
      (volatility_cases df)
  obtain ⟨s, hS⟩ := sharpe_isSome df hclose
  obtain ⟨b, hB, b0, b100⟩ := clampF_bounds (s * 50)
  obtain ⟨c, hC, c0, c100⟩ :=
    pymax_zero_sub_bounds (calculate_max_drawdown df) 500 (by norm_num)
      (mdd_cases df hclose)
  refine ⟨pyRound 2 (a * 0.4 + b * 0.4 + c * 0.2), ?_, ?_, ?_⟩
  · simp only [calculate_risk_score, hS, fMul_some_some]
    rw [hA, hB, hC]
    simp
  · exact pyRound_nonneg 2 (by nlinarith)
  · have h := pyRound_le_nat 2 100 (x := a * 0.4 + b * 0.4 + c * 0.2)
      (by push_cast; nlinarith)
    exact_mod_cast h

end

end KarmyGold

namespace KarmyGold

noncomputable section


/-- The return score is a number in [0, 100] for positive close
prices. -/
lemma return_bounds (df : DataFrame)
    (hclose : ∀ l, df.close = some l → ∀ x ∈ l, 0 < x) :
    ∃ x, calculate_return_score df = some x ∧ 0 ≤ x ∧ x ≤ 100 := by
  cases hc : df.close with
  | none =>
    exact ⟨0, by simp [calculate_return_score, hc], le_refl 0, by norm_num⟩
  | some c =>
    cases hdt : df.date with
    | none =>
      exact ⟨0, by simp [calculate_return_score, hc, hdt], le_refl 0,
        by norm_num⟩
    | some dl =>
      cases hce : c.isEmpty with
      | true =>
        exact ⟨0, by simp [calculate_return_score, hc, hdt, hce], le_refl 0,
          by norm_num⟩
      | false =>
        have hcne : c ≠ [] := by
          cases c
          · simp at hce
          · simp
        have hfirst : 0 < c.headD 0 := hclose c hc _ (headD_mem hcne 0)
        obtain ⟨x, hx, h0, h100⟩ := clampF_bounds
          ((1 / (1 + Real.exp (-(0.2) * ((c.getLastD 0 / c.headD 0 - 1) * 100 - 2.5)))) * 150)
        refine ⟨x, ?_, h0, h100⟩
        simp only [calculate_return_score, hc, hdt, hce, Bool.false_eq_true,
          if_false]
        rw [if_neg hfirst.ne']
        exact hx

/-- The sentiment score is a number in [0, 100] for positive
volumes. -/
lemma sentiment_bounds (df : DataFrame)
    (hvolume : ∀ l, df.volume = some l → ∀ x ∈ l, 0 < x) :
    ∃ x, calculate_sentiment_score df = some x ∧ 0 ≤ x ∧ x ≤ 100 := by
  cases hv : df.volume with
  | none =>
    exact ⟨50, by simp [calculate_sentiment_score, hv], by norm_num,
      by norm_num⟩
  | some v =>
    by_cases h5 : 5 ≤ df.n
    · have hvlen : v.length = df.n := df.hlen v (Or.inr (Or.inl hv))
      have hidx : v.length - 5 < v.length := by omega
      have hv5 : 0 < v.getD (v.length - 5) 0 :=
        hvolume v hv _ (getD_mem hidx 0)
      obtain ⟨x, hx, h0, h100⟩ := clampF_bounds
        ((1 / (1 + Real.exp (-(0.1) * ((v.getLastD 0 / v.getD (v.length - 5) 0 - 1) * 100 - 0)))) * 100 + 50)
      refine ⟨x, ?_, h0, h100⟩
      simp only [calculate_sentiment_score, hv]
      rw [if_pos h5, if_neg hv5.ne']
      exact hx
    · refine ⟨50, ?_, by norm_num, by norm_num⟩
      simp only [calculate_sentiment_score, hv]
      rw [if_neg h5]
      norm_num

/-- Whenever the tracking score is a number, it lies in [0, 100] (its
final clamp guarantees this; the NaN escape is the undefined ETF–index
correlation). -/
lemma tracking_bounds (df : DataFrame) (size : ℝ) :
    ∀ x, calculate_tracking_score df size = some x → 0 ≤ x ∧ x ≤ 100 := by
  intro x h
  rw [calculate_tracking_score] at h
  rcases hTE : df.trackingErr with _ | l <;>
    rcases hC : df.close with _ | c <;>
      rcases hIC : df.indexClose with _ | ic <;>
        simp only [hTE, hC, hIC] at h <;>
        [skip; skip; skip; skip; skip; skip; skip; skip] <;>
        first
        | (rw [Option.some_inj] at h
           subst h
           norm_num)
        | (split at h
           · rw [Option.some_inj] at h
             subst h
             norm_num
           · exact clampF_of_eq_some h)

/-- The stability score is always a number in [0, 100]. -/
lemma stability_bounds (size_history : List ℝ) :
    ∃ x, calculate_stability_score size_history = some x ∧
      0 ≤ x ∧ x ≤ 100 := by
  simp only [calculate_stability_score]
  split
  · exact ⟨50, rfl, by norm_num, by norm_num⟩
  · split
    · exact ⟨50, rfl, by norm_num, by norm_num⟩
    · refine ⟨_, rfl, ?_, ?_⟩
      · exact (clamp_bounds _).1
      · exact (clamp_bounds _).2

end

end KarmyGold

namespace KarmyGold

noncomputable section


/-- C3 (amended): for every input frame with at least one row, strictly
positive close prices and strictly positive volumes: the liquidity
score is a number in [0, 100] provided the bid-ask-spread values are
nonnegative; the risk, return, sentiment and stability scores are
numbers in [0, 100]; and the tracking score lies in [0, 100] whenever
it is a number (it is NaN exactly when the ETF–index correlation
computation is undefined, e.g. for constant prices). -/
theorem subscores_in_range (df : DataFrame) (size : ℝ)
    (size_history : List ℝ) (hn : 1 ≤ df.n)
    (hclose : ∀ l, df.close = some l → ∀ x ∈ l, 0 < x)
    (hvolume : ∀ l, df.volume = some l → ∀ x ∈ l, 0 < x)
    (hspread : ∀ l, df.spread = some l → ∀ x ∈ l, 0 ≤ x) :
    (∃ x, calculate_liquidity_score df = some x ∧ 0 ≤ x ∧ x ≤ 100) ∧
    (∃ x, calculate_risk_score df = some x ∧ 0 ≤ x ∧ x ≤ 100) ∧
    (∃ x, calculate_return_score df = some x ∧ 0 ≤ x ∧ x ≤ 100) ∧
    (∃ x, calculate_sentiment_score df = some x ∧ 0 ≤ x ∧ x ≤ 100) ∧
    (∀ x, calculate_tracking_score df size = some x → 0 ≤ x ∧ x ≤ 100) ∧
    (∃ x, calculate_stability_score size_history = some x ∧ 0 ≤ x ∧ x ≤ 100) :=
  ⟨liquidity_bounds df hn hspread, risk_bounds df hclose,
    return_bounds df hclose, sentiment_bounds df hvolume,
    tracking_bounds df size, stability_bounds size_history⟩

/-- A one-row frame with close = volume = 1 and no other columns. -/
def subscoresWitnessDf : DataFrame :=
  { n := 1, date := none, close := some [1], volume := some [1],
    amount := none, spread := none, bidVolume := none, askVolume := none,
    turnover := none, indexClose := none, trackingErr := none,
    trackingErrEn := none,
    hlen := by
      rintro l (h | h | h | h | h | h | h | h | h) <;> (try cases h) <;>
        simp_all }

/-- Witness for `subscores_in_range` on `subscoresWitnessDf`. -/
theorem subscores_in_range_witness :
    1 ≤ subscoresWitnessDf.n ∧
    ((∃ x, calculate_liquidity_score subscoresWitnessDf = some x ∧
        0 ≤ x ∧ x ≤ 100) ∧
     (∃ x, calculate_risk_score subscoresWitnessDf = some x ∧
        0 ≤ x ∧ x ≤ 100) ∧
     (∃ x, calculate_return_score subscoresWitnessDf = some x ∧
        0 ≤ x ∧ x ≤ 100) ∧
     (∃ x, calculate_sentiment_score subscoresWitnessDf = some x ∧
        0 ≤ x ∧ x ≤ 100) ∧
     (∀ x, calculate_tracking_score subscoresWitnessDf 5 = some x →
        0 ≤ x ∧ x ≤ 100) ∧
     (∃ x, calculate_stability_score [] = some x ∧ 0 ≤ x ∧ x ≤ 100)) :=
  ⟨by simp [subscoresWitnessDf],
    subscores_in_range subscoresWitnessDf 5 [] (by simp [subscoresWitnessDf])
      (by intro l hl x hx; simp only [subscoresWitnessDf] at hl;
          rw [Option.some_inj] at hl; subst hl; simp_all)
      (by intro l hl x hx; simp only [subscoresWitnessDf] at hl;
          rw [Option.some_inj] at hl; subst hl; simp_all)
      (by intro l hl x hx; simp only [subscoresWitnessDf] at hl;
          exact absurd hl (by simp))⟩

/-- A one-row frame whose bid-ask-spread column holds the (finite)
value −1 and whose amount column holds 0. -/
def liqCxDf : DataFrame :=
  { n := 1, date := none, close := none, volume := none,
    amount := some [0], spread := some [-1], bidVolume := none,
    askVolume := none, turnover := none, indexClose := none,
    trackingErr := none, trackingErrEn := none,
    hlen := by
      rintro l (h | h | h | h | h | h | h | h | h) <;> (try cases h) <;>
        simp_all }

/-- C3 (counterexample): on `liqCxDf` — a finite one-row series with a
negative average bid-ask spread — the liquidity sub-score is 3065,
far above 100: the spread component `max(0, 100 − spread·10⁴)` is not
clamped above and the final sum is not clamped at all, so the original
claim (every sub-score in [0, 100] for arbitrary finite input) is
false. -/
theorem liquidity_score_counterexample :
    calculate_liquidity_score liqCxDf = some 3065 ∧
      ¬ ((3065 : ℝ) ≤ 100) := by
  refine ⟨?_, by norm_num⟩
  have hvol : liqVolumeScore liqCxDf = some 50 := by
    simp [liqVolumeScore, liqCxDf, pyMean]
    norm_num
  have hspr : liqSpreadScore liqCxDf = some 10100 := by
    simp [liqSpreadScore, liqCxDf, pyMean]
    rw [max_eq_right (by norm_num : (0 : ℝ) ≤ 100 + 10000)]
    norm_num
  have hdep : liqDepthScore liqCxDf = some 50 := by
    rw [liqDepthScore, if_neg]
    rw [Bool.and_eq_true, fGtZero_iff, fGtZero_iff]
    rintro ⟨⟨x, hx, hxp⟩, -⟩
    simp [liqBidVolume, liqCxDf] at hx
    rw [← hx] at hxp
    exact lt_irrefl 0 hxp
  have htur : liqTurnoverScore liqCxDf = some 50 := by
    simp [liqTurnoverScore, liqCxDf]
  rw [calculate_liquidity_score, hvol, hspr, hdep, htur]
  simp only [fMul_some_some, fAdd_some_some, Option.map_some']
  rw [show (50 : ℝ) * 0.4 + 10100 * 0.3 + 50 * 0.2 + 50 * 0.1 =
      ((3065 : ℤ) : ℝ) by norm_num]
  rw [pyRound_intCast]
  norm_num

end

end KarmyGold

namespace KarmyGold

noncomputable section


/-- The per-ETF volatility list that `calculate_risk_parity_weights`
(`src/position.py`, lines 843–873) builds: each holding's daily frame
is loaded (`data` stands for `load_etf_daily_data`); a NON-EMPTY frame
contributes `calculate_volatility(df)` — whatever it returns, zero
included — and only an EMPTY frame gets the default volatility 0.1. -/
def riskParityVols (codes : List String) (data : String → DataFrame) :
    List F :=
  codes.map (fun cd =>
    if (data cd).n = 0 then some 0.1
    else calculate_volatility (data cd))

/-- Elementwise `1.0 / np.array(volatilities)`.  The float 1/0 is +inf
(with a warning, not an exception); the subsequent normalisation turns
the inf into NaN/zero weights, so the inf is modelled as NaN directly —
no claim distinguishes the two, both break finiteness and
positivity. -/
def fInv (a : F) : F :=
  match a with
  | some x => if x = 0 then none else some (1 / x)
  | none => none

/-- `np.sum` of a float list; NaN propagates. -/
def fListSum (l : List F) : F := l.foldl fAdd (some 0)

/-- `calculate_risk_parity_weights` from `src/position.py`: inverse
volatilities normalised by their sum.  The `except` branch (equal
weights) is unreachable here: no modelled step raises. -/
def calculate_risk_parity_weights (codes : List String)
    (data : String → DataFrame) : List F :=
  let volatilities := riskParityVols codes data
  let weights := volatilities.map fInv
  weights.map (fun w => fDiv w (fListSum weights))

/-- Summing a NaN-free float list is the real sum. -/
lemma fListSum_map_some (xs : List ℝ) :
    fListSum (xs.map some) = some xs.sum := by
  have h : ∀ (ys : List ℝ) (b : ℝ),
      (ys.map some).foldl fAdd (some b) = some (b + ys.sum) := by
    intro ys
    induction ys with
    | nil => intro b; simp
    | cons y ys ih =>
      intro b
      simp only [List.map_cons, List.foldl_cons, fAdd_some_some, ih,
        List.sum_cons]
      ring_nf
  rw [fListSum, h]
  simp

/-- A list of floats that are all positive numbers is a mapped real
list. -/
lemma exists_map_some {l : List F}
    (h : ∀ v ∈ l, ∃ x, v = some x ∧ 0 < x) :
    ∃ xs : List ℝ, l = xs.map some ∧ ∀ x ∈ xs, 0 < x := by
  induction l with
  | nil => exact ⟨[], rfl, by simp⟩
  | cons v vs ih =>
    obtain ⟨x, hx, hxp⟩ := h v (List.mem_cons_self v vs)
    obtain ⟨xs, hxs, hpos⟩ := ih (fun u hu => h u (List.mem_cons_of_mem v hu))
    refine ⟨x :: xs, ?_, ?_⟩
    · rw [List.map_cons, ← hxs, hx]
    · intro y hy
      rcases List.mem_cons.mp hy with rfl | hy
      · exact hxp
      · exact hpos y hy

/-- Sum of a list divided elementwise. -/
lemma sum_map_div (l : List ℝ) (t : ℝ) :
    (l.map (fun x => x / t)).sum = l.sum / t := by
  induction l with
  | nil => simp
  | cons a as ih => simp [ih, add_div]

/-- C4 (amended): for every non-empty holding set whose volatility
list — the computed volatility for holdings with data, the fixed 0.1
fallback for holdings whose data is unavailable — consists of strictly
positive numbers, the risk-parity weights are numbers, strictly
positive, and sum to exactly 1.  (The fallback is substituted only for
UNAVAILABLE data; a computed volatility of zero reaches the inversion
and destroys the weights — see the counterexample.) -/
theorem risk_parity_amended (codes : List String)
    (data : String → DataFrame) (hne : codes ≠ [])
    (hpos : ∀ v ∈ riskParityVols codes data, ∃ x, v = some x ∧ 0 < x) :
    (∀ w ∈ calculate_risk_parity_weights codes data,
      ∃ y, w = some y ∧ 0 < y) ∧
    fListSum (calculate_risk_parity_weights codes data) = some 1 := by
  obtain ⟨xs, hxs, hxpos⟩ := exists_map_some hpos
  have hxs_ne : xs ≠ [] := by
    intro h
    apply hne
    rw [h] at hxs
    simp only [List.map_nil] at hxs
    have hc := congrArg List.length hxs
    simp only [riskParityVols, List.length_map, List.length_nil] at hc
    exact List.length_eq_zero.mp hc
  have hinv : (riskParityVols codes data).map fInv =
      (xs.map (fun x => 1 / x)).map some := by
    rw [hxs, List.map_map, List.map_map]
    refine List.map_congr_left ?_
    intro x hx
    have : x ≠ 0 := (hxpos x hx).ne'
    simp [fInv, this]
  have hsum : fListSum ((riskParityVols codes data).map fInv) =
      some ((xs.map (fun x => 1 / x)).sum) := by
    rw [hinv, fListSum_map_some]
  have hT : 0 < (xs.map (fun x => 1 / x)).sum := by
    apply List.sum_pos
    · intro y hy
      simp only [List.mem_map] at hy
      obtain ⟨x, hx, rfl⟩ := hy
      exact one_div_pos.mpr (hxpos x hx)
    · simp [hxs_ne]
  constructor
  · intro w hw
    simp only [calculate_risk_parity_weights] at hw
    rw [hinv, fListSum_map_some] at hw
    simp only [List.map_map, List.mem_map, Function.comp] at hw
    obtain ⟨x, hx, rfl⟩ := hw
    refine ⟨(1 / x) / (xs.map (fun x => 1 / x)).sum, by simp, ?_⟩
    exact div_pos (one_div_pos.mpr (hxpos x hx)) hT
  · simp only [calculate_risk_parity_weights]
    rw [hinv, fListSum_map_some, List.map_map]
    have hcomp : ((fun w => fDiv w (some ((xs.map fun x => 1 / x).sum))) ∘ some) =
        some ∘ (fun x : ℝ => x / (xs.map fun x => 1 / x).sum) := by
      funext x
      simp
    rw [hcomp, ← List.map_map, fListSum_map_some, sum_map_div,
      div_self hT.ne']

/-- An all-empty data environment: every holding falls back to the 0.1
default volatility. -/
def rpEmptyDf : DataFrame :=
  { n := 0, date := none, close := none, volume := none, amount := none,
    spread := none, bidVolume := none, askVolume := none, turnover := none,
    indexClose := none, trackingErr := none, trackingErrEn := none,
    hlen := by rintro l (h | h | h | h | h | h | h | h | h) <;> simp_all }

/-- Witness for `risk_parity_amended`: one holding with no data — the
0.1 fallback — gives the single weight 1. -/
theorem risk_parity_amended_witness :
    (["510300"] : List String) ≠ [] ∧
    (∀ v ∈ riskParityVols ["510300"] (fun _ => rpEmptyDf),
      ∃ x, v = some x ∧ 0 < x) ∧
    ((∀ w ∈ calculate_risk_parity_weights ["510300"] (fun _ => rpEmptyDf),
      ∃ y, w = some y ∧ 0 < y) ∧
    fListSum (calculate_risk_parity_weights ["510300"] (fun _ => rpEmptyDf)) =
      some 1) :=
  ⟨by simp,
   by
    intro v hv
    simp [riskParityVols, rpEmptyDf] at hv
    exact ⟨0.1, hv, by norm_num⟩,
   risk_parity_amended ["510300"] (fun _ => rpEmptyDf) (by simp)
     (by
      intro v hv
      simp [riskParityVols, rpEmptyDf] at hv
      exact ⟨0.1, hv, by norm_num⟩)⟩

end

end KarmyGold

namespace KarmyGold

noncomputable section


/-- A three-row frame with constant close prices 1, 1, 1: its computed
annualised volatility is exactly 0. -/
def rpCxDf : DataFrame :=
  { n := 3, date := none, close := some [1, 1, 1], volume := none,
    amount := none, spread := none, bidVolume := none, askVolume := none,
    turnover := none, indexClose := none, trackingErr := none,
    trackingErrEn := none,
    hlen := by
      rintro l (h | h | h | h | h | h | h | h | h) <;> (try cases h) <;>
        simp_all }

/-- C4 (counterexample): a holding with available but constant price
data computes volatility 0, and `calculate_risk_parity_weights` feeds
that 0 straight into the inversion — the fixed 0.1 fallback is NOT
substituted for zero volatility, only for unavailable data — so the
division by zero happens and the resulting weight is not a finite
positive number (in floats: 1/0 = inf, normalised to NaN). -/
theorem risk_parity_counterexample :
    riskParityVols ["510300"] (fun _ => rpCxDf) = [some 0] ∧
      calculate_risk_parity_weights ["510300"] (fun _ => rpCxDf) = [none] := by
  have hdr : dailyReturns [(1 : ℝ), 1, 1] = some [1 / 1 - 1, 1 / 1 - 1] := by
    rw [dailyReturns, if_neg (by norm_num)]
    rfl
  have hstd : pyStd [(1 : ℝ) / 1 - 1, 1 / 1 - 1] = some 0 := by
    rw [pyStd, if_neg (by norm_num)]
    norm_num
  have hvolc : volCore [(1 : ℝ), 1, 1] = some 0 := by
    simp only [volCore, hdr, hstd, Option.map_some']
    norm_num
  have hvol : calculate_volatility rpCxDf = some 0 := by
    have hc : rpCxDf.close = some [(1 : ℝ), 1, 1] := rfl
    simp only [calculate_volatility, hc, hvolc, Option.map_some']
    rw [show (0 : ℝ) = ((0 : ℤ) : ℝ) by norm_num, pyRound_intCast]
  have hvols : riskParityVols ["510300"] (fun _ => rpCxDf) = [some 0] := by
    simp only [riskParityVols, List.map_cons, List.map_nil]
    rw [if_neg (by norm_num [rpCxDf]), hvol]
  refine ⟨hvols, ?_⟩
  rw [calculate_risk_parity_weights]
  simp only [hvols, List.map_cons, List.map_nil]
  rw [show fInv (some 0) = none by simp [fInv]]
  rfl

end

end KarmyGold

namespace KarmyGold

noncomputable section


/-- `(takeLast k l).length = min l.length k`. -/
lemma takeLast_length (k : ℕ) (l : List α) :
    (takeLast k l).length = min l.length k := by
  rw [takeLast, List.length_drop]
  omega

/-- `df.tail(k)`: the last `k` rows of every column (a fresh slice
object — column assignments to it do not reach `df`). -/
def dfTail (k : ℕ) (df : DataFrame) : DataFrame :=
  { n := min df.n k,
    date := df.date.map (takeLast k),
    close := df.close.map (takeLast k),
    volume := df.volume.map (takeLast k),
    amount := df.amount.map (takeLast k),
    spread := df.spread.map (takeLast k),
    bidVolume := df.bidVolume.map (takeLast k),
    askVolume := df.askVolume.map (takeLast k),
    turnover := df.turnover.map (takeLast k),
    indexClose := df.indexClose.map (takeLast k),
    trackingErr := df.trackingErr.map (takeLast k),
    trackingErrEn := df.trackingErrEn.map (takeLast k),
    hlen := by
      have key : ∀ l l0 : List ℝ, (df.close = some l0 ∨ df.volume = some l0 ∨
          df.amount = some l0 ∨ df.spread = some l0 ∨ df.bidVolume = some l0 ∨
          df.askVolume = some l0 ∨ df.turnover = some l0 ∨
          df.indexClose = some l0 ∨ df.trackingErr = some l0) →
          takeLast k l0 = l → l.length = min df.n k := by
        intro l l0 hd hl
        rw [← hl, takeLast_length, df.hlen l0 hd]
      rintro l (h | h | h | h | h | h | h | h | h)
      · obtain ⟨l0, hl0, hh⟩ := Option.map_eq_some'.mp h
        exact key l l0 (Or.inl hl0) hh
      · obtain ⟨l0, hl0, hh⟩ := Option.map_eq_some'.mp h
        exact key l l0 (Or.inr (Or.inl hl0)) hh
      · obtain ⟨l0, hl0, hh⟩ := Option.map_eq_some'.mp h
        exact key l l0 (Or.inr (Or.inr (Or.inl hl0))) hh
      · obtain ⟨l0, hl0, hh⟩ := Option.map_eq_some'.mp h
        exact key l l0 (Or.inr (Or.inr (Or.inr (Or.inl hl0)))) hh
      · obtain ⟨l0, hl0, hh⟩ := Option.map_eq_some'.mp h
        exact key l l0 (Or.inr (Or.inr (Or.inr (Or.inr (Or.inl hl0))))) hh
      · obtain ⟨l0, hl0, hh⟩ := Option.map_eq_some'.mp h
        exact key l l0 (Or.inr (Or.inr (Or.inr (Or.inr (Or.inr
          (Or.inl hl0)))))) hh
      · obtain ⟨l0, hl0, hh⟩ := Option.map_eq_some'.mp h
        exact key l l0 (Or.inr (Or.inr (Or.inr (Or.inr (Or.inr (Or.inr
          (Or.inl hl0))))))) hh
      · obtain ⟨l0, hl0, hh⟩ := Option.map_eq_some'.mp h
        exact key l l0 (Or.inr (Or.inr (Or.inr (Or.inr (Or.inr (Or.inr
          (Or.inr (Or.inl hl0)))))))) hh
      · obtain ⟨l0, hl0, hh⟩ := Option.map_eq_some'.mp h
        exact key l l0 (Or.inr (Or.inr (Or.inr (Or.inr (Or.inr (Or.inr
          (Or.inr (Or.inr hl0)))))))) hh }

/-- The `score_weights` dict that `calculate_etf_score` receives
(`BASE_SCORE_WEIGHTS` by default), over the reals. -/
structure ScoreWeightsR where
  liquidity : ℝ
  risk : ℝ
  ret : ℝ
  tracking : ℝ
  premium : ℝ
  stability : ℝ

/-- `Config.BASE_SCORE_WEIGHTS` over the reals. -/
def baseWeightsR : ScoreWeightsR :=
  { liquidity := 0.15, risk := 0.25, ret := 0.20, tracking := 0.20,
    premium := 0.10, stability := 0.10 }

/-- The in-place `df["tracking_error"] = df[close] − df[index_close]`
assignment that `calculate_tracking_score` performs when the standard
跟踪误差 column is absent: the English-named `tracking_error` column is
added to the very frame the function was handed. -/
def addTrackingEn (df : DataFrame) : DataFrame :=
  match df.close, df.indexClose with
  | some c, some ic =>
    { df with trackingErrEn := some (List.zipWith (fun a b => a - b) c ic) }
  | _, _ => df

/-- `calculate_etf_score` (`src/etf_scoring.py`, lines 407–489), with
its data-frame effect made explicit: the result is (composite score,
the caller's frame after the call).

When the date column is present, `df = df.sort_values(DATE_COL)`
rebinds the local name to a fresh sorted copy, so the caller's frame
is never touched (rows are modelled as already date-sorted, making the
copy value-equal to `df`).  When the date column is absent, the local
name still IS the caller's object; the sub-scores get the `tail(30)`
slice (a fresh object), but `calculate_tracking_score` gets the full
frame and adds its derived `tracking_error` column in place when the
standard 跟踪误差 column is missing and both close and index columns
are present.  Fewer than 30 rows: score 0.0, nothing runs.  The
sentiment score is weighted by the `premium` key, as in the source. -/
def calculate_etf_score (df : DataFrame) (w : ScoreWeightsR) (size : ℝ)
    (size_history : List ℝ) : F × DataFrame :=
  let value : F :=
    if df.n < 30 then some 0
    else
      (fAdd (fAdd (fAdd (fAdd (fAdd
        (fMul (calculate_liquidity_score (dfTail 30 df)) (some w.liquidity))
        (fMul (calculate_risk_score (dfTail 30 df)) (some w.risk)))
        (fMul (calculate_return_score (dfTail 30 df)) (some w.ret)))
        (fMul (calculate_tracking_score df size) (some w.tracking)))
        (fMul (calculate_sentiment_score (dfTail 30 df)) (some w.premium)))
        (fMul (calculate_stability_score size_history) (some w.stability))).map
        (pyRound 2)
  let caller : DataFrame :=
    if df.date.isSome then df
    else if df.n < 30 then df
    else
      match df.trackingErr, df.close, df.indexClose with
      | none, some _, some _ => addTrackingEn df
      | _, _, _ => df
  (value, caller)

/-- The composite score never reads the English-named `tracking_error`
column, so frames differing only there score identically. -/
lemma score_ignores_trackingEn (df : DataFrame) (z : Option (List ℝ))
    (w : ScoreWeightsR) (size : ℝ) (hist : List ℝ) :
    (calculate_etf_score { df with trackingErrEn := z } w size hist).1 =
      (calculate_etf_score df w size hist).1 := rfl

end

end KarmyGold

namespace KarmyGold

noncomputable section


/-- C5 (amended): computing the composite score twice yields the same
score — the second call, run on whatever frame the first call left
behind, returns the first call's score — and when the date column is
present the caller's frame is left untouched (the sort produces a
fresh copy).  When the date column is absent, the tracking computation
may add its derived `tracking_error` column to the shared frame (see
the counterexample), but that column is never read, so even then the
scores agree. -/
theorem etf_score_idempotent (df : DataFrame) (w : ScoreWeightsR)
    (size : ℝ) (hist : List ℝ) :
    (calculate_etf_score (calculate_etf_score df w size hist).2
        w size hist).1 = (calculate_etf_score df w size hist).1 ∧
    (df.date.isSome = true → (calculate_etf_score df w size hist).2 = df) := by
  have h2eq : (calculate_etf_score df w size hist).2 =
      (if df.date.isSome then df
       else if df.n < 30 then df
       else
         match df.trackingErr, df.close, df.indexClose with
         | none, some _, some _ => addTrackingEn df
         | _, _, _ => df) := rfl
  have hcall : (calculate_etf_score df w size hist).2 = df ∨
      ((calculate_etf_score df w size hist).2 =
        addTrackingEn df ∧ df.close.isSome ∧ df.indexClose.isSome) := by
    rw [h2eq]
    by_cases hdate : df.date.isSome
    · left; rw [if_pos hdate]
    · rw [if_neg hdate]
      by_cases h30 : df.n < 30
      · left; rw [if_pos h30]
      · rw [if_neg h30]
        rcases hTE : df.trackingErr with _ | te <;>
          rcases hC : df.close with _ | c <;>
            rcases hIC : df.indexClose with _ | ic <;>
              simp [hTE, hC, hIC]
  constructor
  · rcases hcall with h | ⟨h, hc, hic⟩
    · rw [h]
    · rw [h]
      obtain ⟨c, hc⟩ := Option.isSome_iff_exists.mp hc
      obtain ⟨ic, hic⟩ := Option.isSome_iff_exists.mp hic
      have : addTrackingEn df =
          { df with trackingErrEn := (some
              (List.zipWith (fun a b => a - b) c ic)) } := by
        rw [addTrackingEn]
        split
        · rename_i c2 ic2 hc2 hic2
          rw [hc] at hc2
          rw [hic] at hic2
          cases hc2
          cases hic2
          rfl
        · rename_i hcontra
          exact (hcontra c ic hc hic).elim
      rw [this]
      exact score_ignores_trackingEn df _ w size hist
  · intro hdate
    show (if df.date.isSome then df else _) = df
    rw [if_pos hdate]

end

end KarmyGold

namespace KarmyGold

noncomputable section


/-- A 30-row frame with no date column, close and index-close columns
present, and no 跟踪误差 column. -/
def etfCxDf : DataFrame :=
  { n := 30, date := none, close := (some (List.replicate 30 1)),
    volume := none, amount := none, spread := none, bidVolume := none,
    askVolume := none, turnover := none,
    indexClose := (some (List.replicate 30 2)), trackingErr := none,
    trackingErrEn := none,
    hlen := by
      rintro l (h | h | h | h | h | h | h | h | h) <;> (try cases h) <;>
        simp_all }

/-- C5 (counterexample): on `etfCxDf` — no date column, so
`df.sort_values` never makes the protective copy — scoring hands the
caller's own frame to `calculate_tracking_score`, which adds its
derived `tracking_error` column in place: the frame after the call is
NOT the frame before the call, refuting "no scoring computation
mutates the caller's input price series". -/
theorem etf_score_mutation_counterexample :
    (calculate_etf_score etfCxDf baseWeightsR 5 []).2 ≠ etfCxDf ∧
      (calculate_etf_score etfCxDf baseWeightsR 5 []).2.trackingErrEn =
        (some (List.zipWith (fun a b => a - b)
          (List.replicate 30 1) (List.replicate 30 2))) ∧
      etfCxDf.trackingErrEn = none := by
  have h2 : (calculate_etf_score etfCxDf baseWeightsR 5 []).2 =
      { etfCxDf with trackingErrEn := (some
          (List.zipWith (fun a b => a - b)
            (List.replicate 30 1) (List.replicate 30 2))) } := rfl
  refine ⟨?_, by rw [h2], rfl⟩
  intro h
  rw [h2] at h
  have := congrArg DataFrame.trackingErrEn h
  simp [etfCxDf] at this

/-- Witness for `etf_score_idempotent` at `etfCxDf` (the frame whose
first call mutates it: the second call still returns the same
score). -/
theorem etf_score_idempotent_witness :
    (calculate_etf_score (calculate_etf_score etfCxDf baseWeightsR 5 []).2
        baseWeightsR 5 []).1 =
      (calculate_etf_score etfCxDf baseWeightsR 5 []).1 ∧
    (etfCxDf.date.isSome = true →
      (calculate_etf_score etfCxDf baseWeightsR 5 []).2 = etfCxDf) :=
  etf_score_idempotent etfCxDf baseWeightsR 5 []

end

end KarmyGold
